import Mathlib

/-!
# Verification of the ytdlp-microservice subtitle-extraction core

A shallow embedding, in Lean 4, of the retry-aware extraction pipeline and
WebVTT caption parser of the repository (`app/service.py`, `app/utils.py`,
and the format handling of the `/subtitles` route in `app/main.py`),
together with theorems settling the specification claims about it.

Modelling conventions:
* Python strings are modelled as `String` / `List Char`; all inputs used in
  concrete theorems are ASCII, so the ASCII models of `str.strip`,
  `str.lower` and the `\s` character class below are exact on them.
* The regular expressions of the source are compiled by hand into
  deterministic matchers.  Each of the source's patterns
  (`TIMESTAMP_PATTERN`, `TIMESTAMP_PATTERN_SHORT`, `TAG_REMOVAL_PATTERN`,
  the URL patterns) is free of observable backtracking: every `\d+`/`\s*`
  is followed by a character that cannot belong to the repeated class, and
  the alternatives of the URL pattern are mutually exclusive literals, so
  maximal-munch matching coincides with Python `re` semantics.
* `re.search` is modelled by trying the matcher at every suffix, leftmost
  position first, exactly as Python does.
* The `nh3.clean` HTML sanitizer is an external dependency; it is modelled
  from the spec (see `nh3Clean`).
-/

namespace YtdlpSpec

/-- ASCII model of Python's `\s` class / `str.strip()` whitespace:
space, tab, newline, carriage return, vertical tab, form feed. -/
def isPyWs (c : Char) : Bool :=
  c = ' ' || c = '\t' || c = '\n' || c = '\r' || c = '\x0b' || c = '\x0c'

/-- Model of Python `str.strip()` (ASCII whitespace). -/
def pyStrip (l : List Char) : List Char :=
  ((l.dropWhile isPyWs).reverse.dropWhile isPyWs).reverse

/-- Model of Python `str.lower()` (ASCII range). -/
def pyLower (l : List Char) : List Char :=
  l.map Char.toLower

/-- `startsWithCs pre l` models Python `l.startswith(pre)`. -/
def startsWithCs : List Char → List Char → Bool
  | [], _ => true
  | _ :: _, [] => false
  | p :: ps, c :: cs => p = c && startsWithCs ps cs

/-- `containsCs needle hay` models Python's substring test `needle in hay`. -/
def containsCs (needle : List Char) : List Char → Bool
  | [] => needle.isEmpty
  | c :: t => startsWithCs needle (c :: t) || containsCs needle t

/-- String wrapper for `pyStrip`. -/
def pyStripS (s : String) : String := String.mk (pyStrip s.data)

/-- String wrapper for `pyLower`. -/
def pyLowerS (s : String) : String := String.mk (pyLower s.data)

/-- `containsS hay needle` models Python `needle in hay` on strings. -/
def containsS (hay needle : String) : Bool := containsCs needle.data hay.data

/-- String wrapper for `startsWithCs`: models Python `s.startswith(pre)`. -/
def startsWithS (s pre : String) : Bool := startsWithCs pre.data s.data

/-- Model of Python `str.split("\n")`: splits on every newline, keeping
empty pieces (so a trailing newline yields a trailing empty line). -/
def pySplitNl : List Char → List (List Char)
  | [] => [[]]
  | c :: t =>
    if c = '\n' then [] :: pySplitNl t
    else
      match pySplitNl t with
      | [] => [[c]]
      | h :: rest => (c :: h) :: rest

/-- The line-break characters recognised by Python `str.splitlines()`. -/
def isEol (c : Char) : Bool :=
  c = '\n' || c = '\r' || c = '\x0b' || c = '\x0c' ||
  c = '\x1c' || c = '\x1d' || c = '\x1e' || c = '\x85' ||
  c = '\u2028' || c = '\u2029'

/-- Model of Python `str.splitlines()`: splits on every line-break
character, treating `\r\n` as a single break, and drops a trailing
empty line. -/
def pySplitLines : List Char → List (List Char)
  | [] => []
  | '\r' :: '\n' :: t2 => [] :: pySplitLines t2
  | c :: t =>
    if isEol c then [] :: pySplitLines t
    else
      match pySplitLines t with
      | [] => [[c]]
      | h :: rest => (c :: h) :: rest

/-- Model of Python `" ".join(texts)`. -/
def joinSpace (texts : List (List Char)) : List Char :=
  List.intercalate [' '] texts

/-- Worker for `collapseWs`; the flag records whether the previous
character belonged to a whitespace run that has already emitted its
single replacement space. -/
def collapseGo : Bool → List Char → List Char
  | _, [] => []
  | prevWs, c :: t =>
    if isPyWs c then
      if prevWs then collapseGo true t else ' ' :: collapseGo true t
    else c :: collapseGo false t

/-- Model of Python `re.sub(r"\s+", " ", text)`: every maximal whitespace
run is replaced by a single space. -/
def collapseWs (l : List Char) : List Char := collapseGo false l

/-- Fuel-indexed worker for `removeTags`; `fuel` only bounds the number of
steps (each step consumes at least one character, so `fuel = length`
always suffices and the fuel-exhausted branch is unreachable from
`removeTags`). -/
def removeTagsF : Nat → List Char → List Char
  | 0, l => l
  | _ + 1, [] => []
  | fuel + 1, c :: t =>
    if c = '<' then
      match t.dropWhile (fun x => x ≠ '>') with
      | [] => c :: removeTagsF fuel t
      | _ :: after => removeTagsF fuel after
    else c :: removeTagsF fuel t

/-- Model of `TAG_REMOVAL_PATTERN.sub("", text)` with
`TAG_REMOVAL_PATTERN = re.compile(r"<[^>]*>")`: each `<` that has a later
`>` is removed together with everything up to and including the first
such `>`; a `<` with no later `>` cannot start a match and is kept. -/
def removeTags (l : List Char) : List Char := removeTagsF l.length l

/-- Modelled from the spec: `nh3.clean` is an external HTML sanitizer whose
contract in the spec is an "HTML-sanitizing pass that strips any remaining
markup/tags".  It is modelled as a second tag-stripping pass (which is the
identity on the tag-free text produced by `removeTags`); HTML entity
escaping of stray `&`/`>` characters is not modelled, and no theorem below
depends on it. -/
def nh3Clean (l : List Char) : List Char := removeTags l

/-! ## Timestamp patterns

`TIMESTAMP_PATTERN = (\d+:\d{2}:\d{2}\.\d+)\s*-->\s*(\d+:\d{2}:\d{2}\.\d+)`
and `TIMESTAMP_PATTERN_SHORT = (\d{2}:\d{2}\.\d+)\s*-->\s*(\d{2}:\d{2}\.\d+)`
from `SubtitleExtractor`, used with `.search`. -/

/-- Matcher for one long-form timestamp `\d+:\d{2}:\d{2}\.\d+` at the start
of the input; returns the matched characters and the remaining input. -/
def matchTsLong (l : List Char) : Option (List Char × List Char) :=
  let d1 := l.takeWhile Char.isDigit
  if d1.isEmpty then none
  else
    match l.dropWhile Char.isDigit with
    | c1 :: a :: b :: c2 :: c :: d :: c3 :: r2 =>
      if c1 = ':' && a.isDigit && b.isDigit && c2 = ':' && c.isDigit &&
          d.isDigit && c3 = '.' then
        let f := r2.takeWhile Char.isDigit
        if f.isEmpty then none
        else some (d1 ++ c1 :: a :: b :: c2 :: c :: d :: c3 :: f,
                   r2.dropWhile Char.isDigit)
      else none
    | _ => none

/-- Matcher for one short-form timestamp `\d{2}:\d{2}\.\d+` at the start of
the input. -/
def matchTsShort (l : List Char) : Option (List Char × List Char) :=
  match l with
  | a :: b :: c1 :: c :: d :: c2 :: r2 =>
    if a.isDigit && b.isDigit && c1 = ':' && c.isDigit && d.isDigit &&
        c2 = '.' then
      let f := r2.takeWhile Char.isDigit
      if f.isEmpty then none
      else some (a :: b :: c1 :: c :: d :: c2 :: f, r2.dropWhile Char.isDigit)
    else none
  | _ => none

/-- Matcher for the separator `\s*-->\s*` at the start of the input. -/
def matchArrow (l : List Char) : Option (List Char) :=
  match l.dropWhile isPyWs with
  | a :: b :: c :: r =>
    if a = '-' && b = '-' && c = '>' then some (r.dropWhile isPyWs) else none
  | _ => none

/-- Full long pattern anchored at the start of the input: two long-form
timestamps around the arrow; returns the two capture groups. -/
def matchLongAt (l : List Char) : Option (List Char × List Char) :=
  match matchTsLong l with
  | none => none
  | some (g1, r1) =>
    match matchArrow r1 with
    | none => none
    | some r2 =>
      match matchTsLong r2 with
      | none => none
      | some (g2, _) => some (g1, g2)

/-- Full short pattern anchored at the start of the input. -/
def matchShortAt (l : List Char) : Option (List Char × List Char) :=
  match matchTsShort l with
  | none => none
  | some (g1, r1) =>
    match matchArrow r1 with
    | none => none
    | some r2 =>
      match matchTsShort r2 with
      | none => none
      | some (g2, _) => some (g1, g2)

/-- Model of `pattern.search`: try the anchored matcher at every suffix,
leftmost position first (also at the empty suffix, as Python does). -/
def searchWith (m : List Char → Option (List Char × List Char)) :
    List Char → Option (List Char × List Char)
  | [] => m []
  | c :: t =>
    match m (c :: t) with
    | some r => some r
    | none => searchWith m t

/-- `TIMESTAMP_PATTERN.search`. -/
def searchLong (l : List Char) : Option (List Char × List Char) :=
  searchWith matchLongAt l

/-- `TIMESTAMP_PATTERN_SHORT.search`. -/
def searchShort (l : List Char) : Option (List Char × List Char) :=
  searchWith matchShortAt l

/-- The timestamp recognition step shared by both parsers (lines 436-449
and 520-543 of `service.py`): try the long pattern first, then the short
pattern, normalizing a short match by prefixing `00:` to both groups. -/
def searchTs (l : List Char) : Option (List Char × List Char) :=
  match searchLong l with
  | some (a, b) => some (a, b)
  | none =>
    match searchShort l with
    | some (a, b) => some ('0' :: '0' :: ':' :: a, '0' :: '0' :: ':' :: b)
    | none => none

/-! ## The caption parsers -/

/-- `SubtitleEntry` from `service.py` (the Python field `end` is renamed
`endTime`, `end` being a Lean keyword). -/
structure SubtitleEntry where
  start : String
  endTime : String
  text : String
deriving DecidableEq, Repr

/-- `"WEBVTT"` as a character list. -/
def webvttCs : List Char := "WEBVTT".data

/-- `"NOTE"` as a character list. -/
def noteCs : List Char := "NOTE".data

/-- `"STYLE"` as a character list. -/
def styleCs : List Char := "STYLE".data

/-- The per-text-line cleaning of both parsers: first
`TAG_REMOVAL_PATTERN.sub("", line)`, then `nh3.clean`. -/
def cleanTextLine (l : List Char) : List Char := nh3Clean (removeTags l)

/-- The cue-text assembly of both parsers: `" ".join(text_lines)` followed
by `re.sub(r"\s+", " ", text).strip()`. -/
def entryText (texts : List (List Char)) : List Char :=
  pyStrip (collapseWs (joinSpace texts))

/-- Builds the `SubtitleEntry` appended by either parser. -/
def mkEntry (a b : List Char) (texts : List (List Char)) : SubtitleEntry :=
  ⟨String.mk a, String.mk b, String.mk (entryText texts)⟩

/-- One cue's text block in `_parse_vtt_to_json`: the stripped, cleaned,
non-empty, non-`NOTE`/`STYLE` lines up to the first blank line. -/
def collectTexts (rest : List (List Char)) : List (List Char) :=
  ((rest.takeWhile fun r => pyStrip r ≠ []).map
    fun r => cleanTextLine (pyStrip r)).filter
    fun t => t ≠ [] && t ≠ noteCs && t ≠ styleCs

/-- Fuel-indexed worker for the small-input parser
`SubtitleExtractor._parse_vtt_to_json` (lines 424-470 of `service.py`).
Each step consumes at least one line, so any `fuel > number of lines`
avoids the `none` (fuel-exhausted) result; the index-based Python `while`
loop is rendered as recursion on the list of remaining lines, the inner
text-collection `while` as `collectTexts`. -/
def parseLinesF : Nat → List (List Char) → Option (List SubtitleEntry)
  | 0, _ => none
  | _ + 1, [] => some []
  | fuel + 1, raw :: rest =>
    if (pyStrip raw).isEmpty || startsWithCs webvttCs (pyStrip raw) ||
        pyStrip raw = noteCs || pyStrip raw = styleCs then
      parseLinesF fuel rest
    else
      match searchTs (pyStrip raw) with
      | none => parseLinesF fuel rest
      | some (a, b) =>
        if (collectTexts rest).isEmpty then
          parseLinesF fuel (rest.dropWhile fun r => pyStrip r ≠ [])
        else
          match parseLinesF fuel (rest.dropWhile fun r => pyStrip r ≠ []) with
          | none => none
          | some es => some (mkEntry a b (collectTexts rest) :: es)

/-- The small-input path of `_parse_vtt_to_json` applied to the lines of
`vtt_content.split("\n")`. -/
def parseSmallLines (lines : List (List Char)) : List SubtitleEntry :=
  (parseLinesF (lines.length + 1) lines).getD []

/-- The state of the streaming parser `_parse_vtt_streaming`:
`in_header`, `current_entry`, `text_lines` and the accumulated entries. -/
structure StreamState where
  inHeader : Bool
  current : Option (List Char × List Char)
  texts : List (List Char)
  acc : List SubtitleEntry
deriving Repr

/-- The "save previous entry if exists" step of `_parse_vtt_streaming`:
appends an entry and clears `text_lines` exactly when both `current_entry`
and `text_lines` are non-empty. -/
def flushIf (st : StreamState) : StreamState :=
  match st.current, st.texts with
  | some (a, b), t :: ts => { st with acc := st.acc ++ [mkEntry a b (t :: ts)], texts := [] }
  | _, _ => st

/-- The body (post-header) part of `_parse_vtt_streaming`'s loop, applied
to an already-stripped line. -/
def streamBody (st : StreamState) (line : List Char) : StreamState :=
  if line.isEmpty || line = noteCs || line = styleCs then
    let st' := flushIf st
    { st' with current := none, texts := [] }
  else
    match searchTs line with
    | some (a, b) =>
      let st' := flushIf st
      { st' with current := some (a, b) }
    | none =>
      match st.current with
      | some _ =>
        let t := cleanTextLine line
        if !t.isEmpty && t ≠ noteCs && t ≠ styleCs then
          { st with texts := st.texts ++ [t] }
        else st
      | none => st

/-- One iteration of `_parse_vtt_streaming`'s `for line in
vtt_content.splitlines()` loop, header handling included: a non-empty line
that is not a `WEBVTT`/`NOTE`/`STYLE` prefix ends the header and is
processed by the body in the same iteration. -/
def streamStep (st : StreamState) (raw : List Char) : StreamState :=
  let line := pyStrip raw
  if st.inHeader then
    if startsWithCs webvttCs line then st
    else if line.isEmpty || startsWithCs noteCs line || startsWithCs styleCs line then st
    else streamBody { st with inHeader := false } line
  else streamBody st line

/-- `SubtitleExtractor._parse_vtt_streaming` (lines 472-563 of
`service.py`). -/
def parseVttStreaming (s : String) : List SubtitleEntry :=
  (flushIf ((pySplitLines s.data).foldl streamStep ⟨true, none, [], []⟩)).acc

/-- `SubtitleExtractor._parse_vtt_to_json` (lines 403-470 of `service.py`):
content above 1,000,000 characters is dispatched to the streaming parser,
the rest to the materialized-line-array loop. -/
def parseVttToJson (s : String) : List SubtitleEntry :=
  if s.length > 1000000 then parseVttStreaming s
  else parseSmallLines (pySplitNl s.data)

/-! ## Transient-error classification and the retry loop -/

/-- `transient_status_codes` from `_is_transient_error`. -/
def TRANSIENT_STATUS_CODES : List String := ["429", "503", "502", "504"]

/-- `transient_patterns` from `_is_transient_error`. -/
def TRANSIENT_PATTERNS : List String :=
  ["too many requests", "rate limit", "timeout", "connection refused",
   "connection reset", "connection error", "network error", "temporary",
   "service unavailable", "bad gateway", "gateway timeout"]

/-- `SubtitleExtractor._is_transient_error` (lines 340-382 of
`service.py`), as a pure function of the error message `str(error)`:
lowercase the message, then test the status codes and the network-failure
patterns for substring containment. -/
def isTransientError (msg : String) : Bool :=
  let m := pyLowerS msg
  TRANSIENT_STATUS_CODES.any (fun code => containsS m code) ||
  TRANSIENT_PATTERNS.any (fun pat => containsS m pat)

/-- `SubtitleExtractor.MAX_RETRIES`. -/
def MAX_RETRIES : Nat := 3

/-- The payload of a successful extraction: a list of entries (json/text
formats) or a cleaned raw VTT string (vtt format). -/
inductive Payload where
  | entries (es : List SubtitleEntry)
  | raw (s : String)
deriving DecidableEq, Repr

/-- The `ValueError` message of lines 600-603 of `service.py` (no caption
asset found in the working area). -/
def noCaptionsMsg (videoId lang : String) : String :=
  "No subtitles found for video " ++ videoId ++ " in language \x27" ++ lang ++
  "\x27. The video may not have subtitles in this language."

/-- The `ValueError` message of line 612 of `service.py` (caption asset
present but empty). -/
def emptyCaptionsMsg (name : String) : String :=
  "Subtitle file is empty: " ++ name

/-- The `ValueError` message of lines 625-628 of `service.py` (parser
produced zero entries). -/
def malformedMsg : String :=
  "Failed to parse subtitles from VTT file. " ++
  "The file may be malformed or use an unsupported format."

/-- `SubtitleExtractor._extract_subtitles_once` (lines 565-630 of
`service.py`), with the external `yt_dlp` download abstracted away: the
caption assets written into the working area are given as a list of
`(filename, content)` pairs in directory-listing order (the Python code
takes the first `*.vtt` file), and the metadata record (external) is
omitted from the result.  Exceptions become `Except.error` carrying
`str(error)`. -/
def extractOnce (videoId lang : String) (vttFiles : List (String × String))
    (outputFormat : String) : Except String Payload :=
  match vttFiles with
  | [] => .error (noCaptionsMsg videoId lang)
  | (name, content) :: _ =>
    if pyStripS content = "" then .error (emptyCaptionsMsg name)
    else if outputFormat = "vtt" then
      .ok (.raw (String.mk (nh3Clean (removeTags content.data))))
    else
      let entries := parseVttToJson content
      if entries.isEmpty then .error malformedMsg
      else .ok (.entries entries)

/-- Worker for the retry loop of `extract_subtitles` (lines 661-694 of
`service.py`).  `attempts i` is the outcome of `_extract_subtitles_once`
on attempt `i` (0-indexed); the function returns the final outcome, the
number of backoff sleeps performed, and the number of attempts made.
`fuel` counts the loop iterations that remain (`MAX_RETRIES` at the top
call, so the fuel-exhausted branch, which models the `raise
last_error` / `RuntimeError` lines after the loop, is unreachable). -/
def retryGo (attempts : Nat → Except String Payload) :
    Nat → Nat → Nat → Option String → Except String Payload × Nat × Nat
  | 0, i, sleeps, lastErr =>
    (match lastErr with
     | some e => .error e
     | none => .error "RuntimeError", sleeps, i)
  | fuel + 1, i, sleeps, _ =>
    match attempts i with
    | .ok v => (.ok v, sleeps, i + 1)
    | .error e =>
      if i < MAX_RETRIES - 1 && isTransientError e then
        retryGo attempts fuel (i + 1) (sleeps + 1) (some e)
      else (.error e, sleeps, i + 1)

/-- The retry loop of `SubtitleExtractor.extract_subtitles`: at most
`MAX_RETRIES` attempts; after a failed attempt, sleep and continue exactly
when attempts remain and the error is classified transient; otherwise
re-raise the error. -/
def extractWithRetry (attempts : Nat → Except String Payload) :
    Except String Payload × Nat × Nat :=
  retryGo attempts MAX_RETRIES 0 0 none

/-- `SubtitleExtractor.extract_subtitles` (lines 632-694 of `service.py`):
resolve the video id (failing fast on an unresolvable reference), then run
the retry loop over `_extract_subtitles_once`; the result and the sleep
and attempt counters are as in `extractWithRetry`. -/
def extractSubtitles (videoId : Option String)
    (attempts : Nat → Except String Payload) :
    Except String Payload × Nat × Nat :=
  match videoId with
  | none => (.error "Could not extract video ID from URL", 0, 0)
  | some _ => extractWithRetry attempts

/-- The `format=text` branch of the `/subtitles` route (lines 703-707 of
`app/main.py`): the route joins the entry texts of the service result with
single spaces, collapses whitespace runs and strips, producing the
combined text payload. -/
def routeCombinedText (entries : List SubtitleEntry) : String :=
  pyStripS (String.mk (collapseWs (joinSpace (entries.map fun e => e.text.data))))

/-! ## The video reference resolver (`app/utils.py`) -/

/-- The character class `[a-zA-Z0-9_-]` of the video-id patterns. -/
def isIdChar (c : Char) : Bool :=
  c.isAlpha || c.isDigit || c = '_' || c = '-'

/-- Model of `YOUTUBE_ID_PATTERN_COMPILED.match(url)` with the pattern
`^([a-zA-Z0-9_-]{11})$`: `re.match` anchors at the start, and Python's `$`
matches at the end of the string or just before a single trailing
newline, so the pattern accepts exactly an 11-character id, optionally
followed by one final `\n`. -/
def reMatchBareId (s : String) : Bool :=
  (s.data.length = 11 && s.data.all isIdChar) ||
  (s.data.length = 12 && (s.data.take 11).all isIdChar &&
    s.data.getLast? = some '\n')

/-- The four literal alternatives of `YOUTUBE_PATTERN_COMPILED`, in the
pattern's order.  They are pairwise exclusive at any position (they agree
on no common prefix that extends to both), so ordered first-match
trying reproduces the regex's alternation semantics. -/
def urlPrefixes : List (List Char) :=
  ["youtube.com/watch?v=".data, "youtu.be/".data,
   "youtube.com/embed/".data, "youtube.com/shorts/".data]

/-- Tries one alternative of `YOUTUBE_PATTERN_COMPILED` at the current
position: the literal prefix must match and be followed by 11 id
characters (the capture group). -/
def tryAlt (l : List Char) (p : List Char) : Option (List Char) :=
  if startsWithCs p l then
    let g := (l.drop p.length).take 11
    if g.length = 11 && g.all isIdChar then some g else none
  else none

/-- The full `YOUTUBE_PATTERN_COMPILED` anchored at the current position:
first alternative (in pattern order) whose literal and id group both
match. -/
def matchUrlIdAt (l : List Char) : Option (List Char) :=
  urlPrefixes.findSome? (tryAlt l)

/-- `YOUTUBE_PATTERN_COMPILED.search(url)`: leftmost position wins. -/
def searchUrlId (l : List Char) : Option (List Char) :=
  match matchUrlIdAt l with
  | some r => some r
  | none =>
    match l with
    | [] => none
    | _ :: t => searchUrlId t

/-- `extract_video_id` (lines 26-64 of `utils.py`): the full-URL pattern
is tried first via `.search`, then the raw-id pattern via `.match` (whose
group is the first 11 characters). -/
def extractVideoId (url : String) : Option String :=
  match searchUrlId url.data with
  | some g => some (String.mk g)
  | none =>
    if reMatchBareId url then some (String.mk (url.data.take 11)) else none

/-- `valid_hosts` from `is_valid_youtube_url`. -/
def validHosts : List String :=
  ["youtube.com", "www.youtube.com", "youtu.be", "m.youtube.com"]

/-- The `netloc` computed by `urlparse(url)` for a `url` that starts with
`http://` or `https://`: Python's `urlsplit` first removes every ASCII
tab, carriage return and newline from the URL, then takes the authority
as everything after `//` up to the first `/`, `?` or `#` (case is
preserved). -/
def urlNetloc (url : String) : List Char :=
  let cleaned := url.data.filter fun c => c ≠ '\t' && c ≠ '\r' && c ≠ '\n'
  let afterScheme :=
    if startsWithCs "https://".data cleaned then cleaned.drop 8
    else cleaned.drop 7
  afterScheme.takeWhile fun c => c ≠ '/' && c ≠ '?' && c ≠ '#'

/-- `is_valid_youtube_url` (lines 67-121 of `utils.py`): accept a raw-id
match outright; otherwise require an `http://`/`https://` prefix, a
`netloc` exactly equal to an allow-listed host, and an extractable video
id.  (The `try/except` around `urlparse` is dead for `str` inputs and is
not modelled.) -/
def isValidYoutubeUrl (url : String) : Bool :=
  if reMatchBareId url then true
  else if !(startsWithS url "http://" || startsWithS url "https://") then false
  else if !((validHosts.map String.data).contains (urlNetloc url)) then false
  else (extractVideoId url).isSome

/-! ## Spec-side definitions

These definitions follow the words of the specification claims (not the
source); the theorems below compare them with the source-derived
definitions above. -/

/-- The transient markers exactly as listed by claim C6: the status codes
429, 502, 503, 504 and the eight network-failure phrases. -/
def CLAIM_MARKERS : List String :=
  ["429", "502", "503", "504", "timeout", "connection refused",
   "connection reset", "too many requests", "rate limit",
   "service unavailable", "bad gateway", "gateway timeout"]

/-- Claim C6's classification: the message contains one of
`CLAIM_MARKERS`, compared case-insensitively by substring. -/
def specTransientClaimB (msg : String) : Bool :=
  CLAIM_MARKERS.any fun p => containsS (pyLowerS msg) (pyLowerS p)

/-- Claim C7's bare-id shape: an 11-character `[A-Za-z0-9_-]` string. -/
def specBareId (s : String) : Prop :=
  s.data.length = 11 ∧ ∀ c ∈ s.data, isIdChar c = true

/-- The acceptance artifact forced on claim C7 by `re.match`'s `$`
semantics: an 11-character id followed by one trailing newline. -/
def specBareIdNl (s : String) : Prop :=
  s.data.length = 12 ∧ (∀ c ∈ s.data.take 11, isIdChar c = true) ∧
  s.data.getLast? = some '\n'

/-- Claim C7's URL shape: `http`/`https` scheme and an authority exactly
equal to an allow-listed host. -/
def specAllowedUrl (s : String) : Prop :=
  (startsWithS s "http://" = true ∨ startsWithS s "https://" = true) ∧
  urlNetloc s ∈ validHosts.map String.data

instance : DecidableEq (Except String Payload) := fun a b =>
  match a, b with
  | .ok x, .ok y => decidable_of_iff (x = y) (by simp)
  | .error x, .error y => decidable_of_iff (x = y) (by simp)
  | .ok _, .error _ => isFalse (by simp)
  | .error _, .ok _ => isFalse (by simp)

/-- Tests whether an extraction outcome's payload is a combined string
(`Payload.raw`) rather than a sequence of timed entries. -/
def resultIsStringPayload : Except String Payload → Bool
  | .ok (.raw _) => true
  | _ => false

/-! ## Concrete inputs used by the counterexamples -/

/-- WebVTT content in which the second cue is not preceded by a blank
line.  Every cue of the WebVTT format YouTube emits is blank-line
separated, but `_parse_vtt_to_json` accepts arbitrary strings. -/
def vttUnseparated : String :=
  "WEBVTT\n\n00:00:01.000 --> 00:00:02.000\nHello\n" ++
  "00:00:03.500 --> 00:00:04.000\nWorld"

/-- A second cue-without-blank-line input, used by claim C3. -/
def vttMidTimestamp : String :=
  "WEBVTT\n\n00:00:01.000 --> 00:00:02.000\nFirst line\n" ++
  "00:00:05.000 --> 00:00:06.000\nSecond line"

/-- A well-formed two-cue sample caption file. -/
def sampleVtt : String :=
  "WEBVTT\n\n00:00:00.000 --> 00:00:03.500\nHello world\n\n" ++
  "00:00:03.500 --> 00:00:07.000\nSecond line\n"

/-! ## Claim C1 -/

/-- Claim C1 (refuted; supporting theorem for the code bug): the
small-input and streaming parsers do NOT produce identical entry
sequences for every input.  On `vttUnseparated` — whose length is far
below the 1,000,000-character threshold, so `_parse_vtt_to_json` takes
the materialized-line-array path — the small parser produces one entry
(absorbing the second timestamp line into the first cue's text, since its
text-collection loop stops only at a blank line), while the streaming
parser produces two entries. -/
theorem parsePathsDisagreeOnUnseparatedCues :
    (parseVttToJson vttUnseparated).length = 1 ∧
    (parseVttStreaming vttUnseparated).length = 2 ∧
    parseVttToJson vttUnseparated ≠ parseVttStreaming vttUnseparated := by
  decide

/-! ## Claim C3, counterexample -/

/-- Claim C3 counterexample: in the small-input parser a line matching the
timestamp pattern does NOT end the current cue — text collection
continues past it, and the timestamp line IS included in the preceding
cue's text.  On `vttMidTimestamp` the parser yields a single entry whose
text contains the second cue's timestamp `00:00:05.000`. -/
theorem smallParserAbsorbsTimestampLine :
    ((parseVttToJson vttMidTimestamp).map fun e =>
      containsS e.text "00:00:05.000") = [true] := by
  decide

/-! ## Claim C2, counterexample -/

/-- Claim C2 counterexample: a successful extraction in text mode returns
the parsed sequence of timed entries, not a combined
whitespace-normalized string — `_extract_subtitles_once` treats every
format other than `"vtt"` (hence also `"text"`) as the json path. -/
theorem textModeReturnsEntriesNotString :
    extractOnce "dQw4w9WgXcQ" "en" [("dQw4w9WgXcQ.en.vtt", sampleVtt)] "text" =
      .ok (.entries
        [⟨"00:00:00.000", "00:00:03.500", "Hello world"⟩,
         ⟨"00:00:03.500", "00:00:07.000", "Second line"⟩]) ∧
    resultIsStringPayload
      (extractOnce "dQw4w9WgXcQ" "en" [("dQw4w9WgXcQ.en.vtt", sampleVtt)]
        "text") = false := by
  decide

/-! ## Claim C4, counterexample -/

/-- Claim C4 counterexample: a `NoCaptionsFound` failure is NOT always
propagated without further attempts and sleeps — classification is by
message substring, and for the (valid, 11-character) video id
`a429bcdefgh` the rendered message contains `429`, so the failure is
classified transient and the extraction retries through all 3 attempts
with 2 backoff sleeps. -/
theorem noCaptionsRetriedWhenIdContains429 :
    extractSubtitles (extractVideoId "a429bcdefgh")
        (fun _ => extractOnce "a429bcdefgh" "en" [] "json") =
      (.error (noCaptionsMsg "a429bcdefgh" "en"), 2, 3) ∧
    isTransientError (noCaptionsMsg "a429bcdefgh" "en") = true := by
  decide

/-! ## Claim C6, counterexample -/

/-- Claim C6 counterexample: the classifier is NOT exact for the claim's
marker list — the message `Temporary failure` contains none of the
claim's codes or phrases, yet `_is_transient_error` classifies it
transient (the code additionally matches `temporary`, `connection error`
and `network error`). -/
theorem temporaryClassifiedTransientBeyondClaim :
    isTransientError "Temporary failure" = true ∧
    specTransientClaimB "Temporary failure" = false := by
  decide

/-! ## Claim C7, counterexample -/

/-- Claim C7 counterexample: the resolver accepts the 12-character string
`dQw4w9WgXcQ\n`, which is neither an 11-character id nor an
`http`/`https` URL — Python's `$` anchor also matches just before a
single trailing newline. -/
theorem bareIdTrailingNewlineAccepted :
    isValidYoutubeUrl "dQw4w9WgXcQ\n" = true ∧
    ("dQw4w9WgXcQ\n".data.length = 11) = False ∧
    startsWithS "dQw4w9WgXcQ\n" "http://" = false ∧
    startsWithS "dQw4w9WgXcQ\n" "https://" = false := by
  decide

/-! ## Claim C5 -/

/-- Claim C5: the retry loop performs at most 3 total attempts and sleeps
only between a transiently-failed attempt and the next one: transient
failures on attempts 1 and 2 followed by success on attempt 3 yield the
success after exactly 2 sleeps; a non-transient failure on attempt 1
propagates immediately with zero sleeps; three transient failures
propagate the last error after 2 sleeps. -/
theorem retryLoopScenarios :
    (∀ attempts, (extractWithRetry attempts).2.2 ≤ MAX_RETRIES) ∧
    (∀ attempts e0 e1 v,
      attempts 0 = .error e0 → isTransientError e0 = true →
      attempts 1 = .error e1 → isTransientError e1 = true →
      attempts 2 = .ok v →
      extractWithRetry attempts = (.ok v, 2, 3)) ∧
    (∀ attempts e0,
      attempts 0 = .error e0 → isTransientError e0 = false →
      extractWithRetry attempts = (.error e0, 0, 1)) ∧
    (∀ attempts e0 e1 e2,
      attempts 0 = .error e0 → isTransientError e0 = true →
      attempts 1 = .error e1 → isTransientError e1 = true →
      attempts 2 = .error e2 →
      extractWithRetry attempts = (.error e2, 2, 3)) := by
  refine ⟨?_, ?_, ?_, ?_⟩
  · intro attempts
    rcases h0 : attempts 0 with v0 | e0 <;>
      rcases h1 : attempts 1 with v1 | e1 <;>
        rcases h2 : attempts 2 with v2 | e2 <;>
          simp [extractWithRetry, retryGo, h0, h1, h2, MAX_RETRIES] <;>
            split_ifs <;> simp
  · intro attempts e0 e1 v h0 ht0 h1 ht1 h2
    simp [extractWithRetry, retryGo, h0, ht0, h1, ht1, h2, MAX_RETRIES]
  · intro attempts e0 h0 ht0
    simp [extractWithRetry, retryGo, h0, ht0, MAX_RETRIES]
  · intro attempts e0 e1 e2 h0 ht0 h1 ht1 h2
    simp [extractWithRetry, retryGo, h0, ht0, h1, ht1, h2, MAX_RETRIES]

/-- Witness for `retryLoopScenarios`: instantiates the three scenarios at
concrete attempt outcomes (a 429 message for the transient failures,
`Video unavailable` for the permanent one). -/
theorem retryLoopScenariosWitness :
    extractWithRetry
        (fun i => if i = 2 then .ok (.raw "WEBVTT")
                  else .error "HTTP Error 429: Too Many Requests") =
      (.ok (.raw "WEBVTT"), 2, 3) ∧
    extractWithRetry (fun _ => .error "ERROR: Video unavailable") =
      (.error "ERROR: Video unavailable", 0, 1) ∧
    extractWithRetry (fun _ => .error "HTTP Error 429: Too Many Requests") =
      (.error "HTTP Error 429: Too Many Requests", 2, 3) := by
  refine ⟨?_, ?_, ?_⟩
  · exact retryLoopScenarios.2.1
      (fun i => if i = 2 then .ok (.raw "WEBVTT")
                else .error "HTTP Error 429: Too Many Requests")
      "HTTP Error 429: Too Many Requests" "HTTP Error 429: Too Many Requests"
      (.raw "WEBVTT") (by decide) (by decide) (by decide) (by decide) (by decide)
  · exact retryLoopScenarios.2.2.1 (fun _ => .error "ERROR: Video unavailable")
      "ERROR: Video unavailable" (by decide) (by decide)
  · exact retryLoopScenarios.2.2.2 (fun _ => .error "HTTP Error 429: Too Many Requests")
      "HTTP Error 429: Too Many Requests" "HTTP Error 429: Too Many Requests"
      "HTTP Error 429: Too Many Requests" (by decide) (by decide) (by decide)
      (by decide) (by decide)

/-! ## Claim C4, amended -/

/-- Claim C4 as amended: an attempt that finds no caption asset fails with
the `NoCaptionsFound` message and one that finds an empty asset fails
with the `EmptyCaptions` message; whenever the rendered message contains
no transient marker (which holds for every video id, language and
filename that avoid the marker substrings, but not for all of them — see
the counterexample), `extract_subtitles` propagates the failure after a
single attempt with zero backoff sleeps. -/
theorem nonMarkerNoCaptionsFailFast :
    (∀ vid lang fmt, extractOnce vid lang [] fmt =
      .error (noCaptionsMsg vid lang)) ∧
    (∀ vid lang fmt name content, pyStripS content = "" →
      extractOnce vid lang [(name, content)] fmt =
        .error (emptyCaptionsMsg name)) ∧
    (∀ vid lang fmt, isTransientError (noCaptionsMsg vid lang) = false →
      extractSubtitles (some vid) (fun _ => extractOnce vid lang [] fmt) =
        (.error (noCaptionsMsg vid lang), 0, 1)) ∧
    (∀ vid lang fmt name content, pyStripS content = "" →
      isTransientError (emptyCaptionsMsg name) = false →
      extractSubtitles (some vid)
          (fun _ => extractOnce vid lang [(name, content)] fmt) =
        (.error (emptyCaptionsMsg name), 0, 1)) := by
  refine ⟨fun vid lang fmt => rfl, ?_, ?_, ?_⟩
  · intro vid lang fmt name content h
    simp [extractOnce, h]
  · intro vid lang fmt h
    simp [extractSubtitles, extractWithRetry, retryGo, extractOnce, h,
      MAX_RETRIES]
  · intro vid lang fmt name content hc h
    simp [extractSubtitles, extractWithRetry, retryGo, extractOnce, hc, h,
      MAX_RETRIES]

/-- Witness for `nonMarkerNoCaptionsFailFast`: for the video id
`dQw4w9WgXcQ`, language `en` and filename `dQw4w9WgXcQ.en.vtt` neither
failure message contains a transient marker, and both failures propagate
after one attempt with zero sleeps. -/
theorem nonMarkerNoCaptionsFailFastWitness :
    extractSubtitles (some "dQw4w9WgXcQ")
        (fun _ => extractOnce "dQw4w9WgXcQ" "en" [] "json") =
      (.error (noCaptionsMsg "dQw4w9WgXcQ" "en"), 0, 1) ∧
    extractSubtitles (some "dQw4w9WgXcQ")
        (fun _ => extractOnce "dQw4w9WgXcQ" "en" [("dQw4w9WgXcQ.en.vtt", " ")]
          "json") =
      (.error (emptyCaptionsMsg "dQw4w9WgXcQ.en.vtt"), 0, 1) := by
  refine ⟨?_, ?_⟩
  · exact nonMarkerNoCaptionsFailFast.2.2.1 "dQw4w9WgXcQ" "en" "json" (by decide)
  · exact nonMarkerNoCaptionsFailFast.2.2.2 "dQw4w9WgXcQ" "en" "json"
      "dQw4w9WgXcQ.en.vtt" " " (by decide) (by decide)

/-! ## Claim C2, amended -/

/-- Claim C2 as amended: for format `text` a successful
`extract_subtitles` returns the parsed sequence of timed entries (the
same payload as json mode); the combined whitespace-normalized string is
produced from those entries by the API route layer
(`routeCombinedText`). -/
theorem textModePayloadAndRouteCombine :
    (∀ vid lang name content,
      pyStripS content ≠ "" →
      parseVttToJson content ≠ [] →
      extractOnce vid lang [(name, content)] "text" =
        .ok (.entries (parseVttToJson content)) ∧
      extractSubtitles (some vid)
          (fun _ => extractOnce vid lang [(name, content)] "text") =
        (.ok (.entries (parseVttToJson content)), 0, 1)) ∧
    routeCombinedText
        [⟨"00:00:00.000", "00:00:03.500", "Hello world"⟩,
         ⟨"00:00:03.500", "00:00:07.000", "Second line"⟩] =
      "Hello world Second line" := by
  constructor
  · intro vid lang name content hne hp
    have h1 : extractOnce vid lang [(name, content)] "text" =
        .ok (.entries (parseVttToJson content)) := by
      simp [extractOnce, hne, hp]
    refine ⟨h1, ?_⟩
    simp [extractSubtitles, extractWithRetry, retryGo, h1, MAX_RETRIES]
  · decide

/-- Witness for `textModePayloadAndRouteCombine`: instantiated at
`sampleVtt`, whose stripped content is non-empty and which parses to two
entries. -/
theorem textModePayloadAndRouteCombineWitness :
    extractOnce "dQw4w9WgXcQ" "en" [("dQw4w9WgXcQ.en.vtt", sampleVtt)]
        "text" = .ok (.entries (parseVttToJson sampleVtt)) := by
  exact (textModePayloadAndRouteCombine.1 "dQw4w9WgXcQ" "en"
    "dQw4w9WgXcQ.en.vtt" sampleVtt (by decide) (by decide)).1

/-! ## Shared helper lemmas -/

theorem dropWhile_length_le (p : α → Bool) (l : List α) :
    (l.dropWhile p).length ≤ l.length := by
  induction l with
  | nil => simp [List.dropWhile]
  | cons c t ih =>
    rw [List.dropWhile]
    split
    · exact Nat.le_succ_of_le ih
    · exact Nat.le_refl _

/-! ## Claim C6, amended -/

/-- Claim C6 as amended: the orchestrator classifies an error as transient
exactly when its message, compared case-insensitively by substring,
contains one of the claim's markers (the status codes 429, 502, 503, 504
or the phrases timeout, connection refused, connection reset, too many
requests, rate limit, service unavailable, bad gateway, gateway timeout)
or one of the three additional phrases the code also matches: connection
error, network error, temporary.  Every other error is treated as
permanent. -/
theorem transientClassificationCharacterization :
    ∀ msg, isTransientError msg = true ↔
      (specTransientClaimB msg = true ∨
       containsS (pyLowerS msg) "connection error" = true ∨
       containsS (pyLowerS msg) "network error" = true ∨
       containsS (pyLowerS msg) "temporary" = true) := by
  intro msg
  simp only [isTransientError, specTransientClaimB, TRANSIENT_STATUS_CODES,
    TRANSIENT_PATTERNS, CLAIM_MARKERS, List.any_cons, List.any_nil,
    Bool.or_eq_true]
  simp only [show pyLowerS "429" = "429" from by decide,
    show pyLowerS "502" = "502" from by decide,
    show pyLowerS "503" = "503" from by decide,
    show pyLowerS "504" = "504" from by decide,
    show pyLowerS "timeout" = "timeout" from by decide,
    show pyLowerS "connection refused" = "connection refused" from by decide,
    show pyLowerS "connection reset" = "connection reset" from by decide,
    show pyLowerS "too many requests" = "too many requests" from by decide,
    show pyLowerS "rate limit" = "rate limit" from by decide,
    show pyLowerS "service unavailable" = "service unavailable" from by decide,
    show pyLowerS "bad gateway" = "bad gateway" from by decide,
    show pyLowerS "gateway timeout" = "gateway timeout" from by decide]
  tauto

/-! ## Claim C10 -/

/-- Claim C10: both caption parsers terminate and return a (possibly
empty) list of entries for every input — the fuel-indexed small-input
loop always finishes within its fuel bound, streaming parsing is a total
fold, empty and whitespace-only inputs yield empty entry lists — and the
"no parseable entries" failure is raised only by the caller
(`_extract_subtitles_once`) on seeing an empty result: for any non-vtt
format and non-blank content it fails with `malformedMsg` exactly when
the parser returns the empty list. -/
theorem parsersTotalAndEmptySignalledByCaller :
    (∀ fuel lines, lines.length < fuel →
      (parseLinesF fuel lines).isSome = true) ∧
    parseVttToJson "" = [] ∧
    parseVttToJson " \n \t\n " = [] ∧
    parseVttStreaming "" = [] ∧
    parseVttStreaming " \n \t\n " = [] ∧
    (∀ vid lang name content fmt, fmt ≠ "vtt" → pyStripS content ≠ "" →
      (extractOnce vid lang [(name, content)] fmt = .error malformedMsg ↔
        parseVttToJson content = [])) := by
  refine ⟨?_, by decide, by decide, by decide, by decide, ?_⟩
  · intro fuel
    induction fuel with
    | zero => intro lines h; omega
    | succ n ih =>
      intro lines h
      match lines with
      | [] => simp [parseLinesF]
      | raw :: rest =>
        have hrest : rest.length < n := by
          simpa using Nat.lt_of_succ_lt_succ h
        have hrest' : (rest.dropWhile fun r => pyStrip r ≠ []).length < n :=
          Nat.lt_of_le_of_lt (dropWhile_length_le _ _) hrest
        simp only [parseLinesF]
        split
        · exact ih rest hrest
        · cases hs : searchTs (pyStrip raw) with
          | none => simpa [hs] using ih rest hrest
          | some ab =>
            obtain ⟨a, b⟩ := ab
            simp only [hs]
            split
            · exact ih _ hrest'
            · have := ih _ hrest'
              cases hp : parseLinesF n (rest.dropWhile fun r => pyStrip r ≠ []) with
              | none => rw [hp] at this; simp at this
              | some es => simp
  · intro vid lang name content fmt hfmt hne
    have hv : (fmt = "vtt") = False := by simp [hfmt]
    constructor
    · intro h
      simp only [extractOnce, hv, if_false] at h
      by_cases hc : pyStripS content = ""
      · exact absurd hc hne
      · simp only [hc, if_false] at h
        by_cases hp : (parseVttToJson content).isEmpty
        · exact List.isEmpty_iff.mp hp
        · simp [hp] at h
    · intro h
      simp [extractOnce, hv, hne, h]

/-- Witness for `parsersTotalAndEmptySignalledByCaller`: the fuel bound at
a concrete line list, and the caller-side malformed signal at a concrete
non-blank, non-parseable content (both directions of the iff at
`"just text"`, which parses to zero entries). -/
theorem parsersTotalAndEmptySignalledByCallerWitness :
    (parseLinesF 3 ["WEBVTT".data, []]).isSome = true ∧
    extractOnce "dQw4w9WgXcQ" "en" [("f.vtt", "just text")] "json" =
      .error malformedMsg := by
  constructor
  · exact parsersTotalAndEmptySignalledByCaller.1 3 ["WEBVTT".data, []]
      (by decide)
  · exact (parsersTotalAndEmptySignalledByCaller.2.2.2.2.2 "dQw4w9WgXcQ" "en"
      "f.vtt" "just text" "json" (by decide) (by decide)).mpr (by decide)

/-! ## Claim C3, amended -/

/-- A well-formed input whose cue blocks are blank-line separated: the
small parser ends each cue at the blank line. -/
def vttBlankSeparated : String :=
  "WEBVTT\n\n00:00:01.000 --> 00:00:02.000\nHello\n\n" ++
  "00:00:03.500 --> 00:00:04.000\nWorld\n"

/-- Claim C3 as amended: in the streaming parser, a line matching a
timestamp pattern while a cue is being collected ends that cue (its
pending text is emitted as an entry) and starts a new cue carrying the
new timestamps with an empty text list — the timestamp line is never
included in the preceding cue's text.  In the small-input parser, text
collection stops only at a blank line (a mid-collection timestamp line is
absorbed into the cue text — see the counterexample); with blank-line
separated cues it produces one entry per cue. -/
theorem cueBoundaryBehaviorByParser :
    (∀ (st : StreamState) (raw a b p q : List Char)
      (t : List Char) (ts : List (List Char)),
      st.inHeader = false →
      st.current = some (a, b) →
      st.texts = t :: ts →
      searchTs (pyStrip raw) = some (p, q) →
      streamStep st raw =
        { inHeader := false, current := some (p, q), texts := [],
          acc := st.acc ++ [mkEntry a b (t :: ts)] }) ∧
    parseVttToJson vttBlankSeparated =
      [⟨"00:00:01.000", "00:00:02.000", "Hello"⟩,
       ⟨"00:00:03.500", "00:00:04.000", "World"⟩] := by
  constructor
  · rintro ⟨ih, cur, tx, ac⟩ raw a b p q t ts hih hcur htx hs
    simp only at hih hcur htx
    subst hih hcur htx
    have h1 : ¬(pyStrip raw).isEmpty = true := by
      intro h
      rw [List.isEmpty_iff.mp h] at hs
      exact Option.noConfusion ((rfl : searchTs [] = none) ▸ hs)
    have h2 : pyStrip raw ≠ noteCs := by
      intro h
      rw [h] at hs
      exact Option.noConfusion ((by decide : searchTs noteCs = none) ▸ hs)
    have h3 : pyStrip raw ≠ styleCs := by
      intro h
      rw [h] at hs
      exact Option.noConfusion ((by decide : searchTs styleCs = none) ▸ hs)
    simp [streamStep, streamBody, flushIf, h1, h2, h3, hs]
  · decide

/-- Witness for `cueBoundaryBehaviorByParser`: the streaming-step part
instantiated at a mid-cue state hit by a concrete timestamp line. -/
theorem cueBoundaryBehaviorByParserWitness :
    streamStep
        ⟨false, some ("00:00:01.000".data, "00:00:02.000".data),
         ["Hello".data], []⟩
        "00:00:03.500 --> 00:00:04.000".data =
      { inHeader := false,
        current := some ("00:00:03.500".data, "00:00:04.000".data),
        texts := [],
        acc := [mkEntry "00:00:01.000".data "00:00:02.000".data
          ["Hello".data]] } := by
  have h := cueBoundaryBehaviorByParser.1
    ⟨false, some ("00:00:01.000".data, "00:00:02.000".data),
     ["Hello".data], []⟩
    "00:00:03.500 --> 00:00:04.000".data
    "00:00:01.000".data "00:00:02.000".data
    "00:00:03.500".data "00:00:04.000".data
    "Hello".data [] rfl rfl rfl (by decide)
  simpa using h

/-! ## Claim C7, amended -/

/-- Claim C7 as amended: the resolver accepts the bare id `dQw4w9WgXcQ`
and the four listed URLs (yielding video id `dQw4w9WgXcQ`), rejects the
`evil.com` and `ftp://` URLs, and every accepted string is an
11-character `[A-Za-z0-9_-]` id, an 11-character id followed by a single
trailing newline (an artifact of `$` also matching just before a final
newline), or a URL with `http`/`https` scheme whose authority exactly
equals an allow-listed host. -/
theorem resolverAcceptanceCharacterization :
    extractVideoId "dQw4w9WgXcQ" = some "dQw4w9WgXcQ" ∧
    extractVideoId "https://youtu.be/dQw4w9WgXcQ" = some "dQw4w9WgXcQ" ∧
    extractVideoId "https://www.youtube.com/watch?v=dQw4w9WgXcQ&t=10" =
      some "dQw4w9WgXcQ" ∧
    extractVideoId "https://www.youtube.com/shorts/dQw4w9WgXcQ" =
      some "dQw4w9WgXcQ" ∧
    isValidYoutubeUrl "dQw4w9WgXcQ" = true ∧
    isValidYoutubeUrl "https://youtu.be/dQw4w9WgXcQ" = true ∧
    isValidYoutubeUrl "https://www.youtube.com/watch?v=dQw4w9WgXcQ&t=10" =
      true ∧
    isValidYoutubeUrl "https://www.youtube.com/shorts/dQw4w9WgXcQ" = true ∧
    isValidYoutubeUrl "https://evil.com?ref=youtube.com/watch?v=dQw4w9WgXcQ" =
      false ∧
    isValidYoutubeUrl "ftp://youtube.com/watch?v=dQw4w9WgXcQ" = false ∧
    (∀ s, isValidYoutubeUrl s = true →
      specBareId s ∨ specBareIdNl s ∨ specAllowedUrl s) := by
  refine ⟨by decide, by decide, by decide, by decide, by decide, by decide,
    by decide, by decide, by decide, by decide, ?_⟩
  intro s h
  rw [isValidYoutubeUrl] at h
  by_cases hb : reMatchBareId s = true
  · simp only [reMatchBareId, Bool.or_eq_true, Bool.and_eq_true,
      decide_eq_true_eq, List.all_eq_true] at hb
    rcases hb with ⟨h1, h2⟩ | ⟨⟨h1, h2⟩, h3⟩
    · exact Or.inl ⟨h1, h2⟩
    · exact Or.inr (Or.inl ⟨h1, h2, h3⟩)
  · right; right
    rw [if_neg (by simpa using hb)] at h
    by_cases hs : (startsWithS s "http://" || startsWithS s "https://") = true
    · rw [if_neg (by simp [hs])] at h
      by_cases hn : ((validHosts.map String.data).contains (urlNetloc s)) = true
      · exact ⟨Bool.or_eq_true _ _ |>.mp hs,
          List.mem_of_elem_eq_true hn⟩
      · rw [if_pos (by simpa using hn)] at h
        exact absurd h (by simp)
    · rw [if_pos (by simpa using hs)] at h
      exact absurd h (by simp)

/-- Witness for `resolverAcceptanceCharacterization`: the universal part
instantiated at the accepted URL `https://youtu.be/dQw4w9WgXcQ`. -/
theorem resolverAcceptanceCharacterizationWitness :
    specBareId "https://youtu.be/dQw4w9WgXcQ" ∨
    specBareIdNl "https://youtu.be/dQw4w9WgXcQ" ∨
    specAllowedUrl "https://youtu.be/dQw4w9WgXcQ" :=
  resolverAcceptanceCharacterization.2.2.2.2.2.2.2.2.2.2
    "https://youtu.be/dQw4w9WgXcQ" (by decide)

/-! ## Helper lemmas on the string primitives -/

theorem takeWhile_append_eq (p : Char → Bool) (a b : List Char)
    (ha : ∀ c ∈ a, p c = true) (hb : ∀ c, b.head? = some c → p c = false) :
    (a ++ b).takeWhile p = a ∧ (a ++ b).dropWhile p = b := by
  induction a with
  | nil =>
    cases b with
    | nil => simp
    | cons c t =>
      have := hb c rfl
      simp [List.takeWhile, List.dropWhile, this]
  | cons c a' ih =>
    have hc := ha c (by simp)
    have ih' := ih fun x hx => ha x (by simp [hx])
    simp [List.takeWhile, List.dropWhile, hc, ih'.1, ih'.2]

theorem dropWhile_eq_self_of_head (p : Char → Bool) (l : List Char)
    (h : ∀ c, l.head? = some c → p c = false) : l.dropWhile p = l := by
  cases l with
  | nil => rfl
  | cons c t => simp [List.dropWhile, h c rfl]

theorem pyStrip_eq_self (l : List Char)
    (h1 : ∀ c, l.head? = some c → isPyWs c = false)
    (h2 : ∀ c, l.getLast? = some c → isPyWs c = false) : pyStrip l = l := by
  have e1 : l.dropWhile isPyWs = l := dropWhile_eq_self_of_head _ _ h1
  have e2 : l.reverse.dropWhile isPyWs = l.reverse := by
    refine dropWhile_eq_self_of_head _ _ fun c hc => h2 c ?_
    rwa [List.head?_reverse] at hc
  rw [pyStrip, e1, e2, List.reverse_reverse]

theorem pyStrip_eq_self_of_all (l : List Char)
    (h : ∀ c ∈ l, isPyWs c = false) : pyStrip l = l := by
  refine pyStrip_eq_self l (fun c hc => h c ?_) (fun c hc => h c ?_)
  · exact List.mem_of_mem_head? hc
  · exact List.mem_of_mem_getLast? hc

theorem collapseGo_of_no_ws (l : List Char) (h : ∀ c ∈ l, isPyWs c = false) :
    ∀ b, collapseGo b l = l := by
  induction l with
  | nil => intro b; rfl
  | cons c t ih =>
    intro b
    have hc := h c (by simp)
    simp [collapseGo, hc, ih fun x hx => h x (by simp [hx])]

theorem collapseGo_append_of_no_ws (x : List Char) (hx : x ≠ [])
    (h : ∀ c ∈ x, isPyWs c = false) (rest : List Char) :
    ∀ b, collapseGo b (x ++ rest) = x ++ collapseGo false rest := by
  induction x with
  | nil => exact absurd rfl hx
  | cons c x' ih =>
    intro b
    have hc := h c (by simp)
    cases x' with
    | nil => simp [collapseGo, hc]
    | cons d x'' =>
      have := ih (by simp) (fun y hy => h y (by simp [hy])) b
      simp only [List.cons_append, collapseGo, hc, Bool.false_eq_true,
        if_false]
      simpa [collapseGo, hc] using
        ih (by simp) (fun y hy => h y (by simp [hy])) false

theorem collapseGo_true_of_head (c : Char) (l : List Char)
    (h : isPyWs c = false) :
    collapseGo true (c :: l) = collapseGo false (c :: l) := by
  simp [collapseGo, h]

theorem joinSpace_singleton (t : List Char) : joinSpace [t] = t := by
  simp [joinSpace, List.intercalate]

theorem joinSpace_cons_cons (t1 t2 : List Char) (rest : List (List Char)) :
    joinSpace (t1 :: t2 :: rest) = t1 ++ ' ' :: joinSpace (t2 :: rest) := by
  simp [joinSpace, List.intercalate, List.intersperse]

/-- On a non-empty list of non-empty, whitespace-free text lines, the
whitespace-collapsing pass is the identity on the space-joined text, the
joined text is non-empty, and its first and last characters are
non-whitespace. -/
theorem collapse_join_clean (texts : List (List Char)) (hne : texts ≠ [])
    (h : ∀ t ∈ texts, t ≠ [] ∧ ∀ c ∈ t, isPyWs c = false) :
    collapseWs (joinSpace texts) = joinSpace texts ∧
    joinSpace texts ≠ [] ∧
    (∀ c, (joinSpace texts).head? = some c → isPyWs c = false) ∧
    (∀ c, (joinSpace texts).getLast? = some c → isPyWs c = false) := by
  induction texts with
  | nil => exact absurd rfl hne
  | cons t rest ih =>
    obtain ⟨ht, htc⟩ := h t (by simp)
    cases rest with
    | nil =>
      rw [joinSpace_singleton]
      exact ⟨collapseGo_of_no_ws t htc false, ht,
        fun c hc => htc c (List.mem_of_mem_head? hc),
        fun c hc => htc c (List.mem_of_mem_getLast? hc)⟩
    | cons t2 rest2 =>
      obtain ⟨ihc, ihne, ihh, ihl⟩ :=
        ih (by simp) fun x hx => h x (by simp [hx])
      rw [joinSpace_cons_cons]
      obtain ⟨c2, l2, hl2⟩ : ∃ c2 l2, joinSpace (t2 :: rest2) = c2 :: l2 := by
        cases hj : joinSpace (t2 :: rest2) with
        | nil => exact absurd hj ihne
        | cons a b => exact ⟨a, b, rfl⟩
      have hhead : isPyWs c2 = false := ihh c2 (by rw [hl2]; rfl)
      refine ⟨?_, by simp [ht], ?_, ?_⟩
      · rw [collapseWs, collapseGo_append_of_no_ws t ht htc]
        congr 1
        have h1 : collapseGo false (' ' :: joinSpace (t2 :: rest2)) =
            ' ' :: collapseGo true (joinSpace (t2 :: rest2)) := by
          simp [collapseGo, isPyWs]
        have ihc' : collapseGo false (joinSpace (t2 :: rest2)) =
            joinSpace (t2 :: rest2) := ihc
        rw [h1, hl2, collapseGo_true_of_head c2 l2 hhead, ← hl2, ihc']
      · intro c hc
        rw [List.head?_append_of_ne_nil _ ht] at hc
        exact htc c (List.mem_of_mem_head? hc)
      · intro c hc
        rw [List.getLast?_append_cons, hl2, List.getLast?_cons_cons] at hc
        exact ihl c (by rw [hl2]; exact hc)

theorem removeTagsF_fuel_irrel :
    ∀ f1 f2 l, l.length ≤ f1 → l.length ≤ f2 →
      removeTagsF f1 l = removeTagsF f2 l := by
  intro f1
  induction f1 with
  | zero =>
    intro f2 l h1 _
    have : l = [] := List.length_eq_zero.mp (Nat.le_zero.mp h1)
    subst this
    cases f2 <;> rfl
  | succ n ih =>
    intro f2 l h1 h2
    cases l with
    | nil => cases f2 <;> rfl
    | cons c t =>
      cases f2 with
      | zero => simp at h2
      | succ m =>
        have ht1 : t.length ≤ n := by simpa using h1
        have ht2 : t.length ≤ m := by simpa using h2
        simp only [removeTagsF]
        by_cases hc : c = '<'
        · simp only [hc, if_pos rfl]
          cases hd : t.dropWhile (fun x => x ≠ '>') with
          | nil => rw [ih m t ht1 ht2]
          | cons x after =>
            have hlen : after.length + 1 ≤ t.length := by
              have := dropWhile_length_le (fun x => x ≠ '>') t
              rw [hd] at this
              simpa using this
            exact ih m after (by omega) (by omega)
        · simp only [hc, if_false]
          rw [ih m t ht1 ht2]

theorem removeTagsF_no_lt :
    ∀ fuel l, (∀ c ∈ l, ¬c = '<') → removeTagsF fuel l = l := by
  intro fuel
  induction fuel with
  | zero => intro l _; rfl
  | succ n ih =>
    intro l h
    cases l with
    | nil => rfl
    | cons c t =>
      have hc := h c (by simp)
      simp only [removeTagsF, hc, if_false]
      rw [ih t fun x hx => h x (by simp [hx])]

theorem removeTags_no_lt (l : List Char) (h : ∀ c ∈ l, ¬c = '<') :
    removeTags l = l :=
  removeTagsF_no_lt _ _ h

theorem removeTagsF_span :
    ∀ pre fuel b post, pre.length < fuel → (∀ c ∈ pre, ¬c = '<') →
      (∀ c ∈ b, ¬c = '>') →
      removeTagsF fuel (pre ++ '<' :: (b ++ '>' :: post)) =
        pre ++ removeTagsF (fuel - (pre.length + 1)) post := by
  intro pre
  induction pre with
  | nil =>
    intro fuel b post hf _ hb
    cases fuel with
    | zero => omega
    | succ f =>
      have hdrop : (b ++ '>' :: post).dropWhile (fun x => x ≠ '>') =
          '>' :: post := by
        refine (takeWhile_append_eq _ b ('>' :: post) ?_ ?_).2
        · intro c hc
          simpa using hb c hc
        · intro c hc
          simp only [List.head?] at hc
          cases hc
          simp
      simp only [List.nil_append, removeTagsF, if_true]
      rw [hdrop]
      simp
  | cons c pre' ih =>
    intro fuel b post hf hpre hb
    cases fuel with
    | zero => omega
    | succ f =>
      have hc := hpre c (by simp)
      have hf' : pre'.length < f := by simpa using hf
      have hshape : (c :: pre') ++ '<' :: (b ++ '>' :: post) =
          c :: (pre' ++ '<' :: (b ++ '>' :: post)) := by simp
      rw [hshape]
      simp only [removeTagsF, hc, if_false]
      rw [ih f b post hf' (fun x hx => hpre x (by simp [hx])) hb]
      have harith : f + 1 - ((c :: pre').length + 1) = f - (pre'.length + 1) := by
        simp only [List.length_cons]
        omega
      rw [harith]
      simp

theorem removeTags_span (pre b post : List Char)
    (hpre : ∀ c ∈ pre, ¬c = '<') (hb : ∀ c ∈ b, ¬c = '>') :
    removeTags (pre ++ '<' :: (b ++ '>' :: post)) = pre ++ removeTags post := by
  rw [removeTags]
  have hlen : pre.length < (pre ++ '<' :: (b ++ '>' :: post)).length := by
    simp [List.length_append]
  rw [removeTagsF_span pre _ b post hlen hpre hb]
  congr 1
  apply removeTagsF_fuel_irrel
  · simp [List.length_append]
    omega
  · exact Nat.le_refl _

/-! ## Claim C9 -/

/-- The spec's tag-markup example as a full caption file. -/
def vttTagged : String :=
  "WEBVTT\n\n00:00:01.000 --> 00:00:04.000\n" ++
  "<00:00:02.500>Second <00:00:03.000>subtitle\n"

/-- A cue with two text lines and untidy whitespace. -/
def vttMessyWs : String :=
  "WEBVTT\n\n00:00:01.000 --> 00:00:04.000\n  Hello \t  there \nworld  \n"

/-- Claim C9: every angle-bracket span `<...>` in a cue text line is
removed by the tag-removal pass (which runs before the HTML sanitizer):
`removeTags` deletes each bracketed span wholesale.  Cue text lines free
of whitespace are joined with single spaces, whitespace collapsing and
trimming leaving the joined text unchanged.  In particular the spec's
example line `<00:00:02.500>Second <00:00:03.000>subtitle` yields an
entry whose text is exactly `Second subtitle`, and a cue with untidy
internal whitespace is collapsed to single spaces and trimmed. -/
theorem textSanitizationAndJoin :
    (∀ pre b post, (∀ c ∈ pre, ¬c = '<') → (∀ c ∈ b, ¬c = '>') →
      removeTags (pre ++ '<' :: (b ++ '>' :: post)) = pre ++ removeTags post) ∧
    (∀ texts, texts ≠ [] →
      (∀ t ∈ texts, t ≠ [] ∧ ∀ c ∈ t, isPyWs c = false) →
      entryText texts = joinSpace texts) ∧
    parseVttToJson vttTagged =
      [⟨"00:00:01.000", "00:00:04.000", "Second subtitle"⟩] ∧
    parseVttToJson vttMessyWs =
      [⟨"00:00:01.000", "00:00:04.000", "Hello there world"⟩] := by
  refine ⟨removeTags_span, ?_, by decide, by decide⟩
  intro texts hne h
  obtain ⟨hc, _, hh, hl⟩ := collapse_join_clean texts hne h
  rw [entryText, hc, pyStrip_eq_self _ hh hl]

/-- Witness for `textSanitizationAndJoin`: the span-removal part at the
spec's example spans and the join part at the example's two words. -/
theorem textSanitizationAndJoinWitness :
    removeTags
        ("".data ++ '<' :: ("00:00:02.500".data ++ '>' :: "Second ".data)) =
      "".data ++ removeTags "Second ".data ∧
    entryText ["Second".data, "subtitle".data] =
      joinSpace ["Second".data, "subtitle".data] := by
  constructor
  · exact textSanitizationAndJoin.1 "".data "00:00:02.500".data
      "Second ".data (by decide) (by decide)
  · exact textSanitizationAndJoin.2.1 ["Second".data, "subtitle".data]
      (by decide) (by decide)

/-! ## Character-class helper lemmas -/

theorem digit_ne (c x : Char) (h : c.isDigit = true) (hx : x.isDigit = false) :
    ¬c = x := by
  intro e
  subst e
  rw [h] at hx
  exact Bool.noConfusion hx

theorem alnum_ne (c x : Char) (h : c.isAlphanum = true)
    (hx : x.isAlphanum = false) : ¬c = x := by
  intro e
  subst e
  rw [h] at hx
  exact Bool.noConfusion hx

theorem digit_not_ws (c : Char) (h : c.isDigit = true) : isPyWs c = false := by
  cases hw : isPyWs c with
  | false => rfl
  | true =>
    exfalso
    simp only [isPyWs, Bool.or_eq_true, decide_eq_true_eq] at hw
    rcases hw with ((((rfl | rfl) | rfl) | rfl) | rfl) | rfl <;>
      exact absurd h (by decide)

theorem alnum_not_ws (c : Char) (h : c.isAlphanum = true) :
    isPyWs c = false := by
  cases hw : isPyWs c with
  | false => rfl
  | true =>
    exfalso
    simp only [isPyWs, Bool.or_eq_true, decide_eq_true_eq] at hw
    rcases hw with ((((rfl | rfl) | rfl) | rfl) | rfl) | rfl <;>
      exact absurd h (by decide)

theorem startsWithCs_false_of_ne (p c : Char) (ps cs : List Char)
    (h : ¬p = c) : startsWithCs (p :: ps) (c :: cs) = false := by
  simp [startsWithCs, h]

/-! ## Symbolic matching of the timestamp patterns -/

/-- One long-form timestamp `\d+:\d{2}:\d{2}\.\d+` as a character list. -/
def tsLongChars (d1 : List Char) (x1 x2 y1 y2 : Char) (f1 : List Char) :
    List Char :=
  d1 ++ ':' :: x1 :: x2 :: ':' :: y1 :: y2 :: '.' :: f1

/-- One short-form timestamp `\d{2}:\d{2}\.\d+` as a character list. -/
def tsShortChars (x1 x2 y1 y2 : Char) (f : List Char) : List Char :=
  x1 :: x2 :: ':' :: y1 :: y2 :: '.' :: f

theorem matchTsLong_build (d1 f1 rest : List Char) (x1 x2 y1 y2 : Char)
    (hd1 : d1 ≠ []) (hd1d : ∀ c ∈ d1, c.isDigit = true)
    (hx1 : x1.isDigit = true) (hx2 : x2.isDigit = true)
    (hy1 : y1.isDigit = true) (hy2 : y2.isDigit = true)
    (hf1 : f1 ≠ []) (hf1d : ∀ c ∈ f1, c.isDigit = true)
    (hrest : ∀ c, rest.head? = some c → c.isDigit = false) :
    matchTsLong (tsLongChars d1 x1 x2 y1 y2 (f1 ++ rest)) =
      some (tsLongChars d1 x1 x2 y1 y2 f1, rest) := by
  obtain ⟨ht1, hd1'⟩ := takeWhile_append_eq Char.isDigit d1
    (':' :: x1 :: x2 :: ':' :: y1 :: y2 :: '.' :: (f1 ++ rest)) hd1d
    (fun c hc => by
      simp only [List.head?, Option.some_inj] at hc
      subst hc
      decide)
  obtain ⟨ht2, hd2'⟩ := takeWhile_append_eq Char.isDigit f1 rest hf1d hrest
  have hne : d1.isEmpty = false := by
    cases d1
    · exact absurd rfl hd1
    · rfl
  have hne2 : f1.isEmpty = false := by
    cases f1
    · exact absurd rfl hf1
    · rfl
  rw [tsLongChars, matchTsLong]
  simp only [ht1, hd1', hne, Bool.false_eq_true, if_false, ht2, hd2', hne2,
    hx1, hx2, hy1, hy2]
  simp [tsLongChars]

theorem matchTsShort_build (f1 rest : List Char) (x1 x2 y1 y2 : Char)
    (hx1 : x1.isDigit = true) (hx2 : x2.isDigit = true)
    (hy1 : y1.isDigit = true) (hy2 : y2.isDigit = true)
    (hf1 : f1 ≠ []) (hf1d : ∀ c ∈ f1, c.isDigit = true)
    (hrest : ∀ c, rest.head? = some c → c.isDigit = false) :
    matchTsShort (tsShortChars x1 x2 y1 y2 (f1 ++ rest)) =
      some (tsShortChars x1 x2 y1 y2 f1, rest) := by
  obtain ⟨ht2, hd2'⟩ := takeWhile_append_eq Char.isDigit f1 rest hf1d hrest
  have hne2 : f1.isEmpty = false := by
    cases f1
    · exact absurd rfl hf1
    · rfl
  rw [tsShortChars, matchTsShort]
  simp only [ht2, hd2', hne2, hx1, hx2, hy1, hy2]
  simp [tsShortChars]

theorem matchArrow_build (ts2 : List Char)
    (h : ∀ c, ts2.head? = some c → isPyWs c = false) :
    matchArrow (' ' :: '-' :: '-' :: '>' :: ' ' :: ts2) = some ts2 := by
  have h1 : (' ' :: '-' :: '-' :: '>' :: ' ' :: ts2).dropWhile isPyWs =
      '-' :: '-' :: '>' :: ' ' :: ts2 := by
    rw [List.dropWhile_cons_of_pos (by decide)]
    exact List.dropWhile_cons_of_neg (by decide)
  have h2 : (' ' :: ts2).dropWhile isPyWs = ts2.dropWhile isPyWs :=
    List.dropWhile_cons_of_pos (by decide)
  rw [matchArrow, h1]
  show some ((' ' :: ts2).dropWhile isPyWs) = some ts2
  rw [h2, dropWhile_eq_self_of_head isPyWs ts2 h]

theorem searchWith_of_match (m : List Char → Option (List Char × List Char))
    (l : List Char) (r : List Char × List Char) (h : m l = some r) :
    searchWith m l = some r := by
  cases l with
  | nil => simpa [searchWith] using h
  | cons c t => simp [searchWith, h]

theorem getLast?_cons_of_ne_nil (c : Char) (l : List Char) (h : l ≠ []) :
    (c :: l).getLast? = l.getLast? := by
  cases l with
  | nil => exact absurd rfl h
  | cons d t => rw [List.getLast?_cons_cons]

theorem getLast?_tsLongChars (d1 : List Char) (x1 x2 y1 y2 : Char)
    (f1 : List Char) (hf1 : f1 ≠ []) :
    (tsLongChars d1 x1 x2 y1 y2 f1).getLast? = f1.getLast? := by
  rw [tsLongChars, List.getLast?_append_cons, List.getLast?_cons_cons,
    List.getLast?_cons_cons, List.getLast?_cons_cons, List.getLast?_cons_cons,
    List.getLast?_cons_cons]
  exact getLast?_cons_of_ne_nil '.' f1 hf1

theorem getLast?_tsShortChars (x1 x2 y1 y2 : Char) (f : List Char)
    (hf : f ≠ []) :
    (tsShortChars x1 x2 y1 y2 f).getLast? = f.getLast? := by
  rw [tsShortChars, List.getLast?_cons_cons, List.getLast?_cons_cons,
    List.getLast?_cons_cons, List.getLast?_cons_cons, List.getLast?_cons_cons]
  exact getLast?_cons_of_ne_nil '.' f hf

theorem tsLongChars_ne_nil (d1 : List Char) (x1 x2 y1 y2 : Char)
    (f1 : List Char) : tsLongChars d1 x1 x2 y1 y2 f1 ≠ [] := by
  rw [tsLongChars]
  intro h
  exact absurd (List.append_eq_nil.mp h).2 (by simp)

theorem pySplitNl_no_nl (a : List Char) (ha : ∀ c ∈ a, ¬c = '\n') :
    pySplitNl a = [a] := by
  induction a with
  | nil => rfl
  | cons c t ih =>
    have hc := ha c (by simp)
    rw [pySplitNl, if_neg hc, ih fun x hx => ha x (by simp [hx])]

theorem pySplitNl_append_nl (a : List Char) (ha : ∀ c ∈ a, ¬c = '\n')
    (b : List Char) : pySplitNl (a ++ '\n' :: b) = a :: pySplitNl b := by
  induction a with
  | nil => simp [pySplitNl]
  | cons c t ih =>
    have hc := ha c (by simp)
    rw [List.cons_append, pySplitNl, if_neg hc,
      ih fun x hx => ha x (by simp [hx])]

theorem parseLinesF_nil (fuel : Nat) (hf : fuel ≠ 0) :
    parseLinesF fuel [] = some [] := by
  cases fuel with
  | zero => exact absurd rfl hf
  | succ n => rfl

theorem parseLinesF_skip (fuel : Nat) (hf : fuel ≠ 0) (raw : List Char)
    (rest : List (List Char))
    (h : ((pyStrip raw).isEmpty || startsWithCs webvttCs (pyStrip raw) ||
      pyStrip raw = noteCs || pyStrip raw = styleCs) = true) :
    parseLinesF fuel (raw :: rest) = parseLinesF (fuel - 1) rest := by
  cases fuel with
  | zero => exact absurd rfl hf
  | succ n => rw [parseLinesF, if_pos h]; rfl

theorem parseLinesF_cue (fuel : Nat) (hf : fuel ≠ 0) (raw : List Char)
    (rest : List (List Char)) (a b : List Char)
    (h : ((pyStrip raw).isEmpty || startsWithCs webvttCs (pyStrip raw) ||
      pyStrip raw = noteCs || pyStrip raw = styleCs) = false)
    (hts : searchTs (pyStrip raw) = some (a, b))
    (htexts : (collectTexts rest).isEmpty = false) :
    parseLinesF fuel (raw :: rest) =
      match parseLinesF (fuel - 1) (rest.dropWhile fun r => pyStrip r ≠ []) with
      | none => none
      | some es => some (mkEntry a b (collectTexts rest) :: es) := by
  cases fuel with
  | zero => exact absurd rfl hf
  | succ n =>
    rw [parseLinesF, if_neg (by simp [h])]
    simp only [hts, htexts, Bool.false_eq_true, if_false]
    rfl

theorem matchLongAt_build (d1 f1 d2 f2 : List Char)
    (x1 x2 y1 y2 m1 m2 s1 s2 : Char)
    (hd1 : d1 ≠ []) (hd1d : ∀ c ∈ d1, c.isDigit = true)
    (hf1 : f1 ≠ []) (hf1d : ∀ c ∈ f1, c.isDigit = true)
    (hd2 : d2 ≠ []) (hd2d : ∀ c ∈ d2, c.isDigit = true)
    (hf2 : f2 ≠ []) (hf2d : ∀ c ∈ f2, c.isDigit = true)
    (hx1 : x1.isDigit = true) (hx2 : x2.isDigit = true)
    (hy1 : y1.isDigit = true) (hy2 : y2.isDigit = true)
    (hm1 : m1.isDigit = true) (hm2 : m2.isDigit = true)
    (hs1 : s1.isDigit = true) (hs2 : s2.isDigit = true) :
    matchLongAt (tsLongChars d1 x1 x2 y1 y2 (f1 ++ (' ' :: '-' :: '-' :: '>' ::
        ' ' :: tsLongChars d2 m1 m2 s1 s2 f2))) =
      some (tsLongChars d1 x1 x2 y1 y2 f1, tsLongChars d2 m1 m2 s1 s2 f2) := by
  have h1 := matchTsLong_build d1 f1
    (' ' :: '-' :: '-' :: '>' :: ' ' :: tsLongChars d2 m1 m2 s1 s2 f2)
    x1 x2 y1 y2 hd1 hd1d hx1 hx2 hy1 hy2 hf1 hf1d
    (fun c hc => by
      simp only [List.head?, Option.some_inj] at hc
      subst hc
      decide)
  have hts2head : ∀ c, (tsLongChars d2 m1 m2 s1 s2 f2).head? = some c →
      isPyWs c = false := by
    intro c hc
    rw [tsLongChars, List.head?_append_of_ne_nil _ hd2] at hc
    exact digit_not_ws c (hd2d c (List.mem_of_mem_head? hc))
  have h2 := matchArrow_build (tsLongChars d2 m1 m2 s1 s2 f2) hts2head
  have h3 : matchTsLong (tsLongChars d2 m1 m2 s1 s2 f2) =
      some (tsLongChars d2 m1 m2 s1 s2 f2, []) := by
    have := matchTsLong_build d2 f2 [] m1 m2 s1 s2 hd2 hd2d hm1 hm2 hs1 hs2
      hf2 hf2d (fun c hc => by simp at hc)
    simpa using this
  simp only [matchLongAt, h1, h2, h3]

theorem matchShortAt_build (f1 f2 : List Char) (x1 x2 y1 y2 m1 m2 s1 s2 : Char)
    (hf1 : f1 ≠ []) (hf1d : ∀ c ∈ f1, c.isDigit = true)
    (hf2 : f2 ≠ []) (hf2d : ∀ c ∈ f2, c.isDigit = true)
    (hx1 : x1.isDigit = true) (hx2 : x2.isDigit = true)
    (hy1 : y1.isDigit = true) (hy2 : y2.isDigit = true)
    (hm1 : m1.isDigit = true) (hm2 : m2.isDigit = true)
    (hs1 : s1.isDigit = true) (hs2 : s2.isDigit = true) :
    matchShortAt (tsShortChars x1 x2 y1 y2 (f1 ++ (' ' :: '-' :: '-' :: '>' ::
        ' ' :: tsShortChars m1 m2 s1 s2 f2))) =
      some (tsShortChars x1 x2 y1 y2 f1, tsShortChars m1 m2 s1 s2 f2) := by
  have h1 := matchTsShort_build f1
    (' ' :: '-' :: '-' :: '>' :: ' ' :: tsShortChars m1 m2 s1 s2 f2)
    x1 x2 y1 y2 hx1 hx2 hy1 hy2 hf1 hf1d
    (fun c hc => by
      simp only [List.head?, Option.some_inj] at hc
      subst hc
      decide)
  have hts2head : ∀ c, (tsShortChars m1 m2 s1 s2 f2).head? = some c →
      isPyWs c = false := by
    intro c hc
    rw [tsShortChars] at hc
    simp only [List.head?, Option.some_inj] at hc
    subst hc
    exact digit_not_ws m1 hm1
  have h2 := matchArrow_build (tsShortChars m1 m2 s1 s2 f2) hts2head
  have h3 : matchTsShort (tsShortChars m1 m2 s1 s2 f2) =
      some (tsShortChars m1 m2 s1 s2 f2, []) := by
    have := matchTsShort_build f2 [] m1 m2 s1 s2 hm1 hm2 hs1 hs2 hf2 hf2d
      (fun c hc => by simp at hc)
    simpa using this
  simp only [matchShortAt, h1, h2, h3]

/-- A caption file consisting of the `WEBVTT` banner, a blank line, one
cue timestamp line and one cue text line. -/
def vttCueContent (tsLine text : List Char) : String :=
  String.mk (webvttCs ++ '\n' :: '\n' :: (tsLine ++ '\n' :: text))

/-- Shared helper: the cue-text assembly is the plain space-join on
non-empty whitespace-free lines. -/
theorem entryText_of_clean (texts : List (List Char)) (hne : texts ≠ [])
    (h : ∀ t ∈ texts, t ≠ [] ∧ ∀ c ∈ t, isPyWs c = false) :
    entryText texts = joinSpace texts := by
  obtain ⟨hc, _, hh, hl⟩ := collapse_join_clean texts hne h
  rw [entryText, hc, pyStrip_eq_self _ hh hl]

/-- Evaluation of the small-input parser on a single-cue caption file:
whatever timestamp groups the combined search recognises on the (already
stripped) cue line become the entry's `start`/`end`, and the alphanumeric
text line becomes its text. -/
theorem parse_single_cue (tsLine text g1 g2 : List Char)
    (hts_strip : pyStrip tsLine = tsLine)
    (hskip : ((pyStrip tsLine).isEmpty ||
      startsWithCs webvttCs (pyStrip tsLine) ||
      pyStrip tsLine = noteCs || pyStrip tsLine = styleCs) = false)
    (hts_nl : ∀ c ∈ tsLine, ¬c = '\n')
    (hsearch : searchTs tsLine = some (g1, g2))
    (htext_ne : text ≠ []) (htext : ∀ c ∈ text, c.isAlphanum = true)
    (hnote : text ≠ noteCs) (hstyle : text ≠ styleCs)
    (hlen : (vttCueContent tsLine text).length ≤ 1000000) :
    parseVttToJson (vttCueContent tsLine text) =
      [⟨String.mk g1, String.mk g2, String.mk text⟩] := by
  have htx_ws : ∀ c ∈ text, isPyWs c = false :=
    fun c hc => alnum_not_ws c (htext c hc)
  have htx_nl : ∀ c ∈ text, ¬c = '\n' :=
    fun c hc => alnum_ne c '\n' (htext c hc) (by decide)
  have htx_lt : ∀ c ∈ text, ¬c = '<' :=
    fun c hc => alnum_ne c '<' (htext c hc) (by decide)
  have hstrip_t : pyStrip text = text := pyStrip_eq_self_of_all text htx_ws
  have hsplit : pySplitNl (webvttCs ++ '\n' :: '\n' :: (tsLine ++ '\n' :: text)) =
      [webvttCs, [], tsLine, text] := by
    rw [pySplitNl_append_nl webvttCs (by decide)]
    rw [show pySplitNl ('\n' :: (tsLine ++ '\n' :: text)) =
      [] :: pySplitNl (tsLine ++ '\n' :: text) from by rw [pySplitNl, if_pos rfl]]
    rw [pySplitNl_append_nl tsLine hts_nl, pySplitNl_no_nl text htx_nl]
  have hclean_t : cleanTextLine (pyStrip text) = text := by
    rw [hstrip_t, cleanTextLine, nh3Clean, removeTags_no_lt text htx_lt,
      removeTags_no_lt text htx_lt]
  have hctext : collectTexts [text] = [text] := by
    rw [collectTexts]
    rw [show ([text].takeWhile fun r => pyStrip r ≠ []) = [text] from by
      simp [List.takeWhile, hstrip_t, htext_ne]]
    rw [List.map_cons, List.map_nil, hclean_t]
    simp [List.filter, htext_ne, hnote, hstyle]
  have hdrop1 : ([text].dropWhile fun r => pyStrip r ≠ []) = [] := by
    simp [List.dropWhile, hstrip_t, htext_ne]
  have htext_entry : entryText [text] = text := by
    rw [entryText, joinSpace_singleton, collapseWs,
      collapseGo_of_no_ws text htx_ws, hstrip_t]
  rw [parseVttToJson, if_neg (by omega)]
  rw [show (vttCueContent tsLine text).data =
    webvttCs ++ '\n' :: '\n' :: (tsLine ++ '\n' :: text) from rfl]
  rw [hsplit, parseSmallLines]
  rw [show ([webvttCs, [], tsLine, text] : List (List Char)).length + 1 = 5
    from by simp]
  rw [parseLinesF_skip 5 (by norm_num) webvttCs _ (by decide)]
  rw [show (5 : Nat) - 1 = 4 from rfl]
  rw [parseLinesF_skip 4 (by norm_num) [] _ (by decide)]
  rw [show (4 : Nat) - 1 = 3 from rfl]
  rw [parseLinesF_cue 3 (by norm_num) tsLine [text] g1 g2 hskip
    (by rw [hts_strip]; exact hsearch)
    (by rw [hctext]; rfl)]
  rw [show (3 : Nat) - 1 = 2 from rfl]
  rw [hdrop1, parseLinesF_nil 2 (by norm_num)]
  show (some [mkEntry g1 g2 (collectTexts [text])]).getD [] = _
  rw [hctext, Option.getD_some, mkEntry, htext_entry]

theorem mem_longLine (c : Char) (d1 f1 d2 f2 : List Char)
    (x1 x2 y1 y2 m1 m2 s1 s2 : Char)
    (hc : c ∈ tsLongChars d1 x1 x2 y1 y2 (f1 ++ (' ' :: '-' :: '-' :: '>' ::
      ' ' :: tsLongChars d2 m1 m2 s1 s2 f2))) :
    c ∈ d1 ∨ c ∈ f1 ∨ c ∈ d2 ∨ c ∈ f2 ∨ c = ':' ∨ c = '.' ∨ c = ' ' ∨
    c = '-' ∨ c = '>' ∨ c = x1 ∨ c = x2 ∨ c = y1 ∨ c = y2 ∨ c = m1 ∨
    c = m2 ∨ c = s1 ∨ c = s2 := by
  simp only [tsLongChars, List.mem_append, List.mem_cons] at hc
  tauto

theorem mem_shortLine (c : Char) (f1 f2 : List Char)
    (x1 x2 y1 y2 m1 m2 s1 s2 : Char)
    (hc : c ∈ tsShortChars x1 x2 y1 y2 (f1 ++ (' ' :: '-' :: '-' :: '>' ::
      ' ' :: tsShortChars m1 m2 s1 s2 f2))) :
    c ∈ f1 ∨ c ∈ f2 ∨ c = ':' ∨ c = '.' ∨ c = ' ' ∨ c = '-' ∨ c = '>' ∨
    c = x1 ∨ c = x2 ∨ c = y1 ∨ c = y2 ∨ c = m1 ∨ c = m2 ∨ c = s1 ∨
    c = s2 := by
  simp only [tsShortChars, List.mem_append, List.mem_cons] at hc
  tauto

/-- A single-cue caption file whose timestamp line is in long form parses
to one entry carrying the two long-form timestamps verbatim. -/
theorem parseLong_cue (d1 f1 d2 f2 text : List Char)
    (x1 x2 y1 y2 m1 m2 s1 s2 : Char)
    (hd1 : d1 ≠ []) (hd1d : ∀ c ∈ d1, c.isDigit = true)
    (hf1 : f1 ≠ []) (hf1d : ∀ c ∈ f1, c.isDigit = true)
    (hd2 : d2 ≠ []) (hd2d : ∀ c ∈ d2, c.isDigit = true)
    (hf2 : f2 ≠ []) (hf2d : ∀ c ∈ f2, c.isDigit = true)
    (hx1 : x1.isDigit = true) (hx2 : x2.isDigit = true)
    (hy1 : y1.isDigit = true) (hy2 : y2.isDigit = true)
    (hm1 : m1.isDigit = true) (hm2 : m2.isDigit = true)
    (hs1 : s1.isDigit = true) (hs2 : s2.isDigit = true)
    (htext_ne : text ≠ []) (htext : ∀ c ∈ text, c.isAlphanum = true)
    (hnote : text ≠ noteCs) (hstyle : text ≠ styleCs)
    (hlen : (vttCueContent (tsLongChars d1 x1 x2 y1 y2 (f1 ++ (' ' :: '-' ::
      '-' :: '>' :: ' ' :: tsLongChars d2 m1 m2 s1 s2 f2))) text).length ≤
      1000000) :
    parseVttToJson (vttCueContent (tsLongChars d1 x1 x2 y1 y2 (f1 ++
        (' ' :: '-' :: '-' :: '>' :: ' ' :: tsLongChars d2 m1 m2 s1 s2 f2)))
        text) =
      [⟨String.mk (tsLongChars d1 x1 x2 y1 y2 f1),
        String.mk (tsLongChars d2 m1 m2 s1 s2 f2), String.mk text⟩] := by
  obtain ⟨e, d1', rfl⟩ : ∃ e d1'', d1 = e :: d1'' := by
    cases d1 with
    | nil => exact absurd rfl hd1
    | cons a t => exact ⟨a, t, rfl⟩
  have he : e.isDigit = true := hd1d e (by simp)
  have hnl : ∀ c ∈ tsLongChars (e :: d1') x1 x2 y1 y2 (f1 ++ (' ' :: '-' ::
      '-' :: '>' :: ' ' :: tsLongChars d2 m1 m2 s1 s2 f2)), ¬c = '\n' := by
    intro c hc
    rcases mem_longLine c (e :: d1') f1 d2 f2 x1 x2 y1 y2 m1 m2 s1 s2 hc with
      h | h | h | h | rfl | rfl | rfl | rfl | rfl | rfl | rfl | rfl | rfl |
      rfl | rfl | rfl | rfl
    · exact digit_ne c '\n' (hd1d c h) (by decide)
    · exact digit_ne c '\n' (hf1d c h) (by decide)
    · exact digit_ne c '\n' (hd2d c h) (by decide)
    · exact digit_ne c '\n' (hf2d c h) (by decide)
    · decide
    · decide
    · decide
    · decide
    · decide
    · exact digit_ne c '\n' hx1 (by decide)
    · exact digit_ne c '\n' hx2 (by decide)
    · exact digit_ne c '\n' hy1 (by decide)
    · exact digit_ne c '\n' hy2 (by decide)
    · exact digit_ne c '\n' hm1 (by decide)
    · exact digit_ne c '\n' hm2 (by decide)
    · exact digit_ne c '\n' hs1 (by decide)
    · exact digit_ne c '\n' hs2 (by decide)
  have hlast : ∀ c, (tsLongChars (e :: d1') x1 x2 y1 y2 (f1 ++ (' ' :: '-' ::
      '-' :: '>' :: ' ' :: tsLongChars d2 m1 m2 s1 s2 f2))).getLast? =
      some c → isPyWs c = false := by
    intro c hcl
    rw [getLast?_tsLongChars _ _ _ _ _ _ (by simp)] at hcl
    rw [List.getLast?_append_cons, List.getLast?_cons_cons,
      List.getLast?_cons_cons, List.getLast?_cons_cons,
      List.getLast?_cons_cons,
      getLast?_cons_of_ne_nil _ _ (tsLongChars_ne_nil d2 m1 m2 s1 s2 f2),
      getLast?_tsLongChars _ _ _ _ _ _ hf2] at hcl
    exact digit_not_ws c (hf2d c (List.mem_of_mem_getLast? hcl))
  have hstrip : pyStrip (tsLongChars (e :: d1') x1 x2 y1 y2 (f1 ++ (' ' ::
      '-' :: '-' :: '>' :: ' ' :: tsLongChars d2 m1 m2 s1 s2 f2))) =
      tsLongChars (e :: d1') x1 x2 y1 y2 (f1 ++ (' ' :: '-' :: '-' :: '>' ::
      ' ' :: tsLongChars d2 m1 m2 s1 s2 f2)) := by
    refine pyStrip_eq_self _ (fun c hc => ?_) hlast
    rw [show (tsLongChars (e :: d1') x1 x2 y1 y2 (f1 ++ (' ' :: '-' :: '-' ::
      '>' :: ' ' :: tsLongChars d2 m1 m2 s1 s2 f2))).head? = some e from rfl]
      at hc
    cases hc
    exact digit_not_ws e he
  have h2 : startsWithCs webvttCs (tsLongChars (e :: d1') x1 x2 y1 y2 (f1 ++
      (' ' :: '-' :: '-' :: '>' :: ' ' :: tsLongChars d2 m1 m2 s1 s2 f2))) =
      false := by
    rw [tsLongChars, List.cons_append]
    exact startsWithCs_false_of_ne 'W' e _ _
      (fun h => absurd h.symm (digit_ne e 'W' he (by decide)))
  have h3 : ¬tsLongChars (e :: d1') x1 x2 y1 y2 (f1 ++ (' ' :: '-' :: '-' ::
      '>' :: ' ' :: tsLongChars d2 m1 m2 s1 s2 f2)) = noteCs := by
    rw [tsLongChars, List.cons_append]
    intro h
    injection h with h' _
    exact digit_ne e 'N' he (by decide) h'
  have h4 : ¬tsLongChars (e :: d1') x1 x2 y1 y2 (f1 ++ (' ' :: '-' :: '-' ::
      '>' :: ' ' :: tsLongChars d2 m1 m2 s1 s2 f2)) = styleCs := by
    rw [tsLongChars, List.cons_append]
    intro h
    injection h with h' _
    exact digit_ne e 'S' he (by decide) h'
  have h1 : (tsLongChars (e :: d1') x1 x2 y1 y2 (f1 ++ (' ' :: '-' :: '-' ::
      '>' :: ' ' :: tsLongChars d2 m1 m2 s1 s2 f2))).isEmpty = false := by
    rw [tsLongChars, List.cons_append]
    rfl
  have hsL : searchLong (tsLongChars (e :: d1') x1 x2 y1 y2 (f1 ++ (' ' ::
      '-' :: '-' :: '>' :: ' ' :: tsLongChars d2 m1 m2 s1 s2 f2))) =
      some (tsLongChars (e :: d1') x1 x2 y1 y2 f1,
        tsLongChars d2 m1 m2 s1 s2 f2) :=
    searchWith_of_match _ _ _
      (matchLongAt_build (e :: d1') f1 d2 f2 x1 x2 y1 y2 m1 m2 s1 s2
        (by simp) hd1d hf1 hf1d hd2 hd2d hf2 hf2d hx1 hx2 hy1 hy2 hm1 hm2
        hs1 hs2)
  have hsearch : searchTs (tsLongChars (e :: d1') x1 x2 y1 y2 (f1 ++ (' ' ::
      '-' :: '-' :: '>' :: ' ' :: tsLongChars d2 m1 m2 s1 s2 f2))) =
      some (tsLongChars (e :: d1') x1 x2 y1 y2 f1,
        tsLongChars d2 m1 m2 s1 s2 f2) := by
    simp only [searchTs, hsL]
  exact parse_single_cue _ text _ _ hstrip
    (by rw [hstrip]; simp [h1, h2, h3, h4]) hnl hsearch htext_ne htext
    hnote hstyle hlen

/-- A single-cue caption file whose timestamp line is in short form (and on
which the long pattern finds no match anywhere) parses to one entry whose
timestamps are the short-form values prefixed with `00:`. -/
theorem parseShort_cue (f1 f2 text : List Char) (x1 x2 y1 y2 m1 m2 s1 s2 : Char)
    (hf1 : f1 ≠ []) (hf1d : ∀ c ∈ f1, c.isDigit = true)
    (hf2 : f2 ≠ []) (hf2d : ∀ c ∈ f2, c.isDigit = true)
    (hx1 : x1.isDigit = true) (hx2 : x2.isDigit = true)
    (hy1 : y1.isDigit = true) (hy2 : y2.isDigit = true)
    (hm1 : m1.isDigit = true) (hm2 : m2.isDigit = true)
    (hs1 : s1.isDigit = true) (hs2 : s2.isDigit = true)
    (htext_ne : text ≠ []) (htext : ∀ c ∈ text, c.isAlphanum = true)
    (hnote : text ≠ noteCs) (hstyle : text ≠ styleCs)
    (hL : searchLong (tsShortChars x1 x2 y1 y2 (f1 ++ (' ' :: '-' :: '-' ::
      '>' :: ' ' :: tsShortChars m1 m2 s1 s2 f2))) = none)
    (hlen : (vttCueContent (tsShortChars x1 x2 y1 y2 (f1 ++ (' ' :: '-' ::
      '-' :: '>' :: ' ' :: tsShortChars m1 m2 s1 s2 f2))) text).length ≤
      1000000) :
    parseVttToJson (vttCueContent (tsShortChars x1 x2 y1 y2 (f1 ++
        (' ' :: '-' :: '-' :: '>' :: ' ' :: tsShortChars m1 m2 s1 s2 f2)))
        text) =
      [⟨String.mk ('0' :: '0' :: ':' :: tsShortChars x1 x2 y1 y2 f1),
        String.mk ('0' :: '0' :: ':' :: tsShortChars m1 m2 s1 s2 f2),
        String.mk text⟩] := by
  have hnl : ∀ c ∈ tsShortChars x1 x2 y1 y2 (f1 ++ (' ' :: '-' :: '-' ::
      '>' :: ' ' :: tsShortChars m1 m2 s1 s2 f2)), ¬c = '\n' := by
    intro c hc
    rcases mem_shortLine c f1 f2 x1 x2 y1 y2 m1 m2 s1 s2 hc with
      h | h | rfl | rfl | rfl | rfl | rfl | rfl | rfl | rfl | rfl | rfl |
      rfl | rfl | rfl
    · exact digit_ne c '\n' (hf1d c h) (by decide)
    · exact digit_ne c '\n' (hf2d c h) (by decide)
    · decide
    · decide
    · decide
    · decide
    · decide
    · exact digit_ne c '\n' hx1 (by decide)
    · exact digit_ne c '\n' hx2 (by decide)
    · exact digit_ne c '\n' hy1 (by decide)
    · exact digit_ne c '\n' hy2 (by decide)
    · exact digit_ne c '\n' hm1 (by decide)
    · exact digit_ne c '\n' hm2 (by decide)
    · exact digit_ne c '\n' hs1 (by decide)
    · exact digit_ne c '\n' hs2 (by decide)
  have hshort_ne : tsShortChars m1 m2 s1 s2 f2 ≠ [] := by
    rw [tsShortChars]
    simp
  have hlast : ∀ c, (tsShortChars x1 x2 y1 y2 (f1 ++ (' ' :: '-' :: '-' ::
      '>' :: ' ' :: tsShortChars m1 m2 s1 s2 f2))).getLast? = some c →
      isPyWs c = false := by
    intro c hcl
    rw [getLast?_tsShortChars _ _ _ _ _ (by simp)] at hcl
    rw [List.getLast?_append_cons, List.getLast?_cons_cons,
      List.getLast?_cons_cons, List.getLast?_cons_cons,
      List.getLast?_cons_cons,
      getLast?_cons_of_ne_nil _ _ hshort_ne,
      getLast?_tsShortChars _ _ _ _ _ hf2] at hcl
    exact digit_not_ws c (hf2d c (List.mem_of_mem_getLast? hcl))
  have hstrip : pyStrip (tsShortChars x1 x2 y1 y2 (f1 ++ (' ' :: '-' :: '-' ::
      '>' :: ' ' :: tsShortChars m1 m2 s1 s2 f2))) =
      tsShortChars x1 x2 y1 y2 (f1 ++ (' ' :: '-' :: '-' :: '>' :: ' ' ::
      tsShortChars m1 m2 s1 s2 f2)) := by
    refine pyStrip_eq_self _ (fun c hc => ?_) hlast
    rw [show (tsShortChars x1 x2 y1 y2 (f1 ++ (' ' :: '-' :: '-' :: '>' ::
      ' ' :: tsShortChars m1 m2 s1 s2 f2))).head? = some x1 from rfl] at hc
    cases hc
    exact digit_not_ws x1 hx1
  have h2 : startsWithCs webvttCs (tsShortChars x1 x2 y1 y2 (f1 ++ (' ' ::
      '-' :: '-' :: '>' :: ' ' :: tsShortChars m1 m2 s1 s2 f2))) = false := by
    rw [tsShortChars]
    exact startsWithCs_false_of_ne 'W' x1 _ _
      (fun h => absurd h.symm (digit_ne x1 'W' hx1 (by decide)))
  have h3 : ¬tsShortChars x1 x2 y1 y2 (f1 ++ (' ' :: '-' :: '-' :: '>' ::
      ' ' :: tsShortChars m1 m2 s1 s2 f2)) = noteCs := by
    rw [tsShortChars]
    intro h
    injection h with h' _
    exact digit_ne x1 'N' hx1 (by decide) h'
  have h4 : ¬tsShortChars x1 x2 y1 y2 (f1 ++ (' ' :: '-' :: '-' :: '>' ::
      ' ' :: tsShortChars m1 m2 s1 s2 f2)) = styleCs := by
    rw [tsShortChars]
    intro h
    injection h with h' _
    exact digit_ne x1 'S' hx1 (by decide) h'
  have h1 : (tsShortChars x1 x2 y1 y2 (f1 ++ (' ' :: '-' :: '-' :: '>' ::
      ' ' :: tsShortChars m1 m2 s1 s2 f2))).isEmpty = false := by
    rw [tsShortChars]
    rfl
  have hsS : searchShort (tsShortChars x1 x2 y1 y2 (f1 ++ (' ' :: '-' ::
      '-' :: '>' :: ' ' :: tsShortChars m1 m2 s1 s2 f2))) =
      some (tsShortChars x1 x2 y1 y2 f1, tsShortChars m1 m2 s1 s2 f2) :=
    searchWith_of_match _ _ _
      (matchShortAt_build f1 f2 x1 x2 y1 y2 m1 m2 s1 s2 hf1 hf1d hf2 hf2d
        hx1 hx2 hy1 hy2 hm1 hm2 hs1 hs2)
  have hsearch : searchTs (tsShortChars x1 x2 y1 y2 (f1 ++ (' ' :: '-' ::
      '-' :: '>' :: ' ' :: tsShortChars m1 m2 s1 s2 f2))) =
      some ('0' :: '0' :: ':' :: tsShortChars x1 x2 y1 y2 f1,
        '0' :: '0' :: ':' :: tsShortChars m1 m2 s1 s2 f2) := by
    simp only [searchTs, hL, hsS]
  exact parse_single_cue _ text _ _ hstrip
    (by rw [hstrip]; simp [h1, h2, h3, h4]) hnl hsearch htext_ne htext
    hnote hstyle hlen

/-! ## Claim C8 -/

/-- Claim C8: a well-formed cue parses to exactly one entry.  With a
long-form timestamp line `H+:MM:SS.fraction --> H+:MM:SS.fraction` the
entry's `start` and `end` are the two long-form timestamps verbatim; with
a short-form line `MM:SS.fraction --> MM:SS.fraction` (on which the long
pattern, tried first, matches nowhere) they are the short-form values
prefixed with `00:`.  The timestamp components are quantified as digit
strings: hours `d1`/`d2` and fractions `f1`/`f2` of any non-zero length,
two-digit minutes and seconds; the cue text is a non-empty alphanumeric
line, and the content sits below the streaming threshold. -/
theorem timestampNormalizationPerCue :
    (∀ (d1 f1 d2 f2 text : List Char) (x1 x2 y1 y2 m1 m2 s1 s2 : Char),
      d1 ≠ [] → (∀ c ∈ d1, c.isDigit = true) →
      f1 ≠ [] → (∀ c ∈ f1, c.isDigit = true) →
      d2 ≠ [] → (∀ c ∈ d2, c.isDigit = true) →
      f2 ≠ [] → (∀ c ∈ f2, c.isDigit = true) →
      x1.isDigit = true → x2.isDigit = true →
      y1.isDigit = true → y2.isDigit = true →
      m1.isDigit = true → m2.isDigit = true →
      s1.isDigit = true → s2.isDigit = true →
      text ≠ [] → (∀ c ∈ text, c.isAlphanum = true) →
      text ≠ noteCs → text ≠ styleCs →
      (vttCueContent (tsLongChars d1 x1 x2 y1 y2 (f1 ++ (' ' :: '-' :: '-' ::
        '>' :: ' ' :: tsLongChars d2 m1 m2 s1 s2 f2))) text).length ≤
        1000000 →
      parseVttToJson (vttCueContent (tsLongChars d1 x1 x2 y1 y2 (f1 ++
          (' ' :: '-' :: '-' :: '>' :: ' ' ::
            tsLongChars d2 m1 m2 s1 s2 f2))) text) =
        [⟨String.mk (tsLongChars d1 x1 x2 y1 y2 f1),
          String.mk (tsLongChars d2 m1 m2 s1 s2 f2), String.mk text⟩]) ∧
    (∀ (f1 f2 text : List Char) (x1 x2 y1 y2 m1 m2 s1 s2 : Char),
      f1 ≠ [] → (∀ c ∈ f1, c.isDigit = true) →
      f2 ≠ [] → (∀ c ∈ f2, c.isDigit = true) →
      x1.isDigit = true → x2.isDigit = true →
      y1.isDigit = true → y2.isDigit = true →
      m1.isDigit = true → m2.isDigit = true →
      s1.isDigit = true → s2.isDigit = true →
      text ≠ [] → (∀ c ∈ text, c.isAlphanum = true) →
      text ≠ noteCs → text ≠ styleCs →
      searchLong (tsShortChars x1 x2 y1 y2 (f1 ++ (' ' :: '-' :: '-' :: '>' ::
        ' ' :: tsShortChars m1 m2 s1 s2 f2))) = none →
      (vttCueContent (tsShortChars x1 x2 y1 y2 (f1 ++ (' ' :: '-' :: '-' ::
        '>' :: ' ' :: tsShortChars m1 m2 s1 s2 f2))) text).length ≤
        1000000 →
      parseVttToJson (vttCueContent (tsShortChars x1 x2 y1 y2 (f1 ++
          (' ' :: '-' :: '-' :: '>' :: ' ' ::
            tsShortChars m1 m2 s1 s2 f2))) text) =
        [⟨String.mk ('0' :: '0' :: ':' :: tsShortChars x1 x2 y1 y2 f1),
          String.mk ('0' :: '0' :: ':' :: tsShortChars m1 m2 s1 s2 f2),
          String.mk text⟩]) := by
  constructor
  · intro d1 f1 d2 f2 text x1 x2 y1 y2 m1 m2 s1 s2 hd1 hd1d hf1 hf1d hd2
      hd2d hf2 hf2d hx1 hx2 hy1 hy2 hm1 hm2 hs1 hs2 htext_ne htext hnote
      hstyle hlen
    exact parseLong_cue d1 f1 d2 f2 text x1 x2 y1 y2 m1 m2 s1 s2 hd1 hd1d
      hf1 hf1d hd2 hd2d hf2 hf2d hx1 hx2 hy1 hy2 hm1 hm2 hs1 hs2 htext_ne
      htext hnote hstyle hlen
  · intro f1 f2 text x1 x2 y1 y2 m1 m2 s1 s2 hf1 hf1d hf2 hf2d hx1 hx2 hy1
      hy2 hm1 hm2 hs1 hs2 htext_ne htext hnote hstyle hL hlen
    exact parseShort_cue f1 f2 text x1 x2 y1 y2 m1 m2 s1 s2 hf1 hf1d hf2
      hf2d hx1 hx2 hy1 hy2 hm1 hm2 hs1 hs2 htext_ne htext hnote hstyle hL
      hlen

/-- Witness for `timestampNormalizationPerCue`: the long part at the cue
`00:00:01.000 --> 00:00:02.500` / `Hello`, the short part at the cue
`01:02.500 --> 01:03.000` / `World` (where the long pattern indeed
matches nowhere). -/
theorem timestampNormalizationPerCueWitness :
    parseVttToJson (vttCueContent (tsLongChars ['0', '0'] '0' '0' '0' '1'
        (['0', '0', '0'] ++ (' ' :: '-' :: '-' :: '>' :: ' ' ::
          tsLongChars ['0', '0'] '0' '0' '0' '2' ['5', '0', '0'])))
        "Hello".data) =
      [⟨"00:00:01.000", "00:00:02.500", "Hello"⟩] ∧
    parseVttToJson (vttCueContent (tsShortChars '0' '1' '0' '2'
        (['5', '0', '0'] ++ (' ' :: '-' :: '-' :: '>' :: ' ' ::
          tsShortChars '0' '1' '0' '3' ['0', '0', '0'])))
        "World".data) =
      [⟨"00:01:02.500", "00:01:03.000", "World"⟩] := by
  constructor
  · exact timestampNormalizationPerCue.1 ['0', '0'] ['0', '0', '0']
      ['0', '0'] ['5', '0', '0'] "Hello".data '0' '0' '0' '1' '0' '0' '0'
      '2' (by decide) (by decide) (by decide) (by decide) (by decide)
      (by decide) (by decide) (by decide) (by decide) (by decide)
      (by decide) (by decide) (by decide) (by decide) (by decide)
      (by decide) (by decide) (by decide) (by decide) (by decide)
      (by decide)
  · exact timestampNormalizationPerCue.2 ['5', '0', '0'] ['0', '0', '0']
      "World".data '0' '1' '0' '2' '0' '1' '0' '3' (by decide) (by decide)
      (by decide) (by decide) (by decide) (by decide) (by decide)
      (by decide) (by decide) (by decide) (by decide) (by decide)
      (by decide) (by decide) (by decide) (by decide) (by decide)
      (by decide)

end YtdlpSpec

